import Mathlib

/-! Verification of the B&Q verified-seller scraper (browser variant
`scrape.mjs` and API variant): the resumable progress-ledger control loop,
the two fetch clients with their retry/backoff and outcome classification,
and the layered HTML field-extraction cascade of `lib/parse.js`, modelled
as a shallow embedding over executable Lean definitions. -/

namespace BQScraper

/-- Strings of the JS program, modelled as character lists. -/
abbrev Str := List Char

/-- Entry persisted per seller id in the progress ledger (`progress.json`
values): a status string plus the optional error message stored when
`status = "error"`. -/
structure Entry where
  status : Str
  errMsg : Option Str
deriving DecidableEq

/-- The in-memory progress ledger: a JS object keyed by seller id, modelled
as an association list in insertion order. -/
abbrev Ledger := List (Nat × Entry)

/-- Assignment `progress[id] = e`: replaces the value in place when the key
exists, otherwise appends the new binding. -/
def setEntry (m : Ledger) (id : Nat) (e : Entry) : Ledger :=
  match m with
  | [] => [(id, e)]
  | (k, v) :: rest => if k = id then (k, e) :: rest else (k, v) :: setEntry rest id e

/-- Property access `progress[id]`: `none` models JS `undefined` (falsy);
every stored entry is an object, hence truthy. -/
def ledgerGet (m : Ledger) (id : Nat) : Option Entry :=
  match m with
  | [] => none
  | (k, v) :: rest => if k = id then some v else ledgerGet rest id

/-- ASCII lowercase of one character; models JS `toLowerCase` on the
ASCII range (the labels and signals matched by the scraper are ASCII). -/
def lowCh (c : Char) : Char :=
  if 'A' ≤ c ∧ c ≤ 'Z' then Char.ofNat (c.toNat + 32) else c

/-- Lowercase a character list. -/
def lowL (s : List Char) : List Char := s.map lowCh

/-- The JS regex `\s` class and `String.prototype.trim` whitespace:
tab, LF, VT, FF, CR, space, NBSP, Ogham space, the U+2000 range, line and
paragraph separators, narrow and mathematical spaces, ideographic space,
and BOM. -/
def isWS (c : Char) : Bool :=
  c = ' ' || c = '\t' || c = '\n' || c = '\r' || c.toNat = 11 || c.toNat = 12 ||
  c.toNat = 160 || c.toNat = 5760 || (8192 ≤ c.toNat && c.toNat ≤ 8202) ||
  c.toNat = 8232 || c.toNat = 8233 || c.toNat = 8239 || c.toNat = 8287 ||
  c.toNat = 12288 || c.toNat = 65279

/-- ASCII decimal digit. -/
def isDigitCh (c : Char) : Bool := '0' ≤ c && c ≤ '9'

/-- ASCII uppercase letter. -/
def isUpperCh (c : Char) : Bool := 'A' ≤ c && c ≤ 'Z'

/-- ASCII lowercase letter. -/
def isLowerCh (c : Char) : Bool := 'a' ≤ c && c ≤ 'z'

/-- ASCII letter. -/
def isLetterCh (c : Char) : Bool := isUpperCh c || isLowerCh c

/-- The JS regex `\w` class (ASCII). -/
def isWordCh (c : Char) : Bool := isLetterCh c || isDigitCh c || c = '_'

/-- Space or tab, the JS `[ \t]` class. -/
def isSpTab (c : Char) : Bool := c = ' ' || c = '\t'

/-- Does `p` occur at the head of `s`? -/
def startsWithL : List Char → List Char → Bool
  | [], _ => true
  | _ :: _, [] => false
  | p :: ps, c :: cs => p = c && startsWithL ps cs

/-- Case-insensitive prefix test. -/
def startsWithCI (p s : List Char) : Bool := startsWithL (lowL p) (lowL s)

/-- Index of the first occurrence of `p` in `s` starting the count at `k`:
the scan of JS `String.prototype.indexOf`. -/
def firstIdxAux (p : List Char) : List Char → Nat → Option Nat
  | [], k => if startsWithL p [] then some k else none
  | c :: rest, k =>
    if startsWithL p (c :: rest) then some k else firstIdxAux p rest (k + 1)

/-- JS `indexOf`: `none` models `-1`. -/
def firstIdx (p s : List Char) : Option Nat := firstIdxAux p s 0

/-- JS `String.prototype.includes`. -/
def hasSub (p s : List Char) : Bool := (firstIdx p s).isSome

/-- Case-insensitive occurrence index. -/
def firstIdxCI (p s : List Char) : Option Nat := firstIdx (lowL p) (lowL s)

/-- Global literal replacement: leftmost, non-overlapping, continuing after
each replacement — JS `String.prototype.replace` with a `/g` literal
pattern. Fuel-bounded; callers pass the string length. -/
def repAllAux (p r : List Char) : Nat → List Char → List Char
  | 0, s => s
  | _ + 1, [] => []
  | fuel + 1, c :: rest =>
    if p ≠ [] && startsWithL p (c :: rest) then
      r ++ repAllAux p r fuel ((c :: rest).drop p.length)
    else c :: repAllAux p r fuel rest

/-- Global literal replacement of `p` by `r` in `s`. -/
def repAll (p r s : List Char) : List Char := repAllAux p r s.length s

/-- Collapse every run of spaces/tabs to a single space:
`replace(/[ \t]+/g, ' ')`. -/
def collSpTab : List Char → List Char
  | [] => []
  | [c] => if isSpTab c then [' '] else [c]
  | c :: d :: rest =>
    if isSpTab c then
      if isSpTab d then collSpTab (d :: rest) else ' ' :: collSpTab (d :: rest)
    else c :: collSpTab (d :: rest)

/-- Collapse every whitespace run to a single space: `replace(/\s+/g, ' ')`. -/
def collWS : List Char → List Char
  | [] => []
  | [c] => if isWS c then [' '] else [c]
  | c :: d :: rest =>
    if isWS c then
      if isWS d then collWS (d :: rest) else ' ' :: collWS (d :: rest)
    else c :: collWS (d :: rest)

/-- Replace every run of three or more newlines by exactly two:
`replace(/\n{3,}/g, '\n\n')`. -/
def collNl3Aux : Nat → List Char → List Char
  | 0, s => s
  | _ + 1, [] => []
  | fuel + 1, c :: rest =>
    if c = '\n' then
      let n := 1 + (rest.takeWhile (fun d => d = '\n')).length
      if 3 ≤ n then
        '\n' :: '\n' :: collNl3Aux fuel (rest.dropWhile (fun d => d = '\n'))
      else c :: collNl3Aux fuel rest
    else c :: collNl3Aux fuel rest

/-- Replace every run of three or more newlines by exactly two. -/
def collNl3 (s : List Char) : List Char := collNl3Aux s.length s

/-- JS `String.prototype.trim`. -/
def trimJS (s : List Char) : List Char :=
  ((s.dropWhile isWS).reverse.dropWhile isWS).reverse

/-- The apostrophe character. -/
def apos : Char := Char.ofNat 39

/-- Entity decoding of `parse.js`: the seven global replacements, applied
in source order (`&nbsp; &amp; &quot; &#39; &lt; &gt;` and NBSP). -/
def decodeEntities (s : List Char) : List Char :=
  let s1 := repAll "&nbsp;".data [' '] s
  let s2 := repAll "&amp;".data ['&'] s1
  let s3 := repAll "&quot;".data ['"'] s2
  let s4 := repAll "&#39;".data [apos] s3
  let s5 := repAll "&lt;".data ['<'] s4
  let s6 := repAll "&gt;".data ['>'] s5
  repAll [Char.ofNat 160] [' '] s6

/-- `cleanText` of `parse.js`: decode entities, turn CR into LF, collapse
space/tab runs, cap blank lines, trim. -/
def cleanTextL (s : List Char) : List Char :=
  trimJS (collNl3 (collSpTab (repAll ['\r'] ['\n'] (decodeEntities s))))

/-- Removal of one kind of container tag with its content
(`/<script\b[^>]*>[\s\S]*?<\/script>/gi` and the style twin): on an
occurrence of the opening tag name at a word boundary, the opening tag runs
to the first `>`, the body lazily to the first closing tag, and the whole
match is replaced by `rep`; a start with no such completion is left alone. -/
def stripBlockAux (tago tagc rep : List Char) : Nat → List Char → List Char
  | 0, s => s
  | _ + 1, [] => []
  | fuel + 1, c :: rest =>
    let s := c :: rest
    if startsWithCI tago s then
      let after := s.drop tago.length
      let bOK : Bool := match after with
        | [] => true
        | d :: _ => !(isWordCh d)
      if bOK then
        match firstIdx ['>'] after with
        | none => c :: stripBlockAux tago tagc rep fuel rest
        | some j =>
          let body := after.drop (j + 1)
          match firstIdxCI tagc body with
          | none => c :: stripBlockAux tago tagc rep fuel rest
          | some k => rep ++ stripBlockAux tago tagc rep fuel (body.drop (k + tagc.length))
      else c :: stripBlockAux tago tagc rep fuel rest
    else c :: stripBlockAux tago tagc rep fuel rest

/-- Remove `<script ...>...</script>`-style blocks, replacing by `rep`. -/
def stripBlock (tago tagc rep s : List Char) : List Char :=
  stripBlockAux tago tagc rep s.length s

/-- `replace(/<br\s*\/?>/gi, '\n')`. -/
def replBrAux : Nat → List Char → List Char
  | 0, s => s
  | _ + 1, [] => []
  | fuel + 1, c :: rest =>
    let s := c :: rest
    if startsWithCI "<br".data s then
      let after := (s.drop 3).dropWhile isWS
      match after with
      | '/' :: '>' :: tl => '\n' :: replBrAux fuel tl
      | '>' :: tl => '\n' :: replBrAux fuel tl
      | _ => c :: replBrAux fuel rest
    else c :: replBrAux fuel rest

/-- Replace `<br>`-style tags by newlines. -/
def replBr (s : List Char) : List Char := replBrAux s.length s

/-- Closing tag names replaced by newlines, in the source alternation order
(`h\d` handled separately between `article` and `dd`). -/
def closeTagsA : List (List Char) :=
  ["p", "div", "li", "tr", "td", "th", "section", "article"].map (fun t => t.data)

/-- Closing tag names after the `h\d` alternative. -/
def closeTagsB : List (List Char) := ["dd", "dt"].map (fun t => t.data)

/-- Match one alternative of `(p|div|li|tr|td|th|section|article|h\d|dd|dt)>`
case-insensitively at the head; returns the remainder after the `>`. -/
def matchCloseName (after : List Char) : Option (List Char) :=
  match closeTagsA.find? (fun t => startsWithCI (t ++ ['>']) after) with
  | some t => some (after.drop (t.length + 1))
  | none =>
    match lowL after with
    | 'h' :: d :: '>' :: _ =>
      if isDigitCh d then some (after.drop 3) else
        match closeTagsB.find? (fun t => startsWithCI (t ++ ['>']) after) with
        | some t => some (after.drop (t.length + 1))
        | none => none
    | _ =>
      match closeTagsB.find? (fun t => startsWithCI (t ++ ['>']) after) with
      | some t => some (after.drop (t.length + 1))
      | none => none

/-- `replace(/<\/(p|div|li|tr|td|th|section|article|h\d|dd|dt)>/gi, '\n')`. -/
def replCloseAux : Nat → List Char → List Char
  | 0, s => s
  | _ + 1, [] => []
  | fuel + 1, c :: rest =>
    let s := c :: rest
    if startsWithL "</".data s then
      match matchCloseName (s.drop 2) with
      | some tl => '\n' :: replCloseAux fuel tl
      | none => c :: replCloseAux fuel rest
    else c :: replCloseAux fuel rest

/-- Replace block-level closing tags by newlines. -/
def replClose (s : List Char) : List Char := replCloseAux s.length s

/-- `replace(/<[^>]+>/g, ' ')`: a `<` up to the first following `>` with at
least one character in between becomes a single space. -/
def replTagsAux : Nat → List Char → List Char
  | 0, s => s
  | _ + 1, [] => []
  | fuel + 1, c :: rest =>
    if c = '<' then
      match firstIdx ['>'] rest with
      | some j =>
        if 1 ≤ j then ' ' :: replTagsAux fuel (rest.drop (j + 1))
        else c :: replTagsAux fuel rest
      | none => c :: replTagsAux fuel rest
    else c :: replTagsAux fuel rest

/-- Strip all remaining tags to spaces. -/
def replTags (s : List Char) : List Char := replTagsAux s.length s

/-- `replace(/\n[ \t]+/g, '\n')`. -/
def nlSpAux : Nat → List Char → List Char
  | 0, s => s
  | _ + 1, [] => []
  | fuel + 1, c :: rest =>
    if c = '\n' && (match rest with | d :: _ => isSpTab d | [] => false) then
      '\n' :: nlSpAux fuel (rest.dropWhile isSpTab)
    else c :: nlSpAux fuel rest

/-- Drop indentation after newlines. -/
def nlSp (s : List Char) : List Char := nlSpAux s.length s

/-- `replace(/[ \t]+\n/g, '\n')`. -/
def spNlAux : Nat → List Char → List Char
  | 0, s => s
  | _ + 1, [] => []
  | fuel + 1, c :: rest =>
    if isSpTab c then
      match (c :: rest).dropWhile isSpTab with
      | '\n' :: tl => '\n' :: spNlAux fuel tl
      | _ => c :: spNlAux fuel rest
    else c :: spNlAux fuel rest

/-- Drop trailing spaces before newlines. -/
def spNl (s : List Char) : List Char := spNlAux s.length s

/-- `stripTagsKeepLines` of `parse.js`: script/style removal, `<br>` and
block-level closing tags to newlines, remaining tags to spaces, and
whitespace tidying around newlines — in source order. -/
def stripTagsKeepLinesL (html : List Char) : List Char :=
  spNl (nlSp (replTags (replClose (replBr
    (stripBlock "<style".data "</style>".data ['\n']
      (stripBlock "<script".data "</script>".data ['\n'] html))))))

/-- JS `split('\n')` (keeps empty pieces). -/
def splitNlAux : List Char → List Char → List (List Char)
  | [], acc => [acc.reverse]
  | '\n' :: rest, acc => acc.reverse :: splitNlAux rest []
  | c :: rest, acc => splitNlAux rest (c :: acc)

/-- Split a character list on newlines. -/
def splitNl (s : List Char) : List (List Char) := splitNlAux s []

/-- `normalizeLabel` of `parse.js`: clean, lowercase, collapse whitespace,
strip trailing `:`/`-`/en-dash runs, trim. -/
def normalizeLabelL (s : List Char) : List Char :=
  trimJS (trimEndPunct (collWS (lowL (cleanTextL s))))
where
  trimEndPunct (t : List Char) : List Char :=
    (t.reverse.dropWhile (fun c => c = ':' || c = '-' || c = '–')).reverse

/-- Character class `[A-Z0-9 -]` of the VAT shape regex, case-insensitive. -/
def vatClass (c : Char) : Bool := isLetterCh c || isDigitCh c || c = ' ' || c = '-'

/-- Body alternative of the VAT shape: 8–20 class characters to the end. -/
def vatBody (v : List Char) : Bool :=
  8 ≤ v.length && v.length ≤ 20 && v.all vatClass

/-- After a two-letter prefix: `\s*` then the 8–20 character body
(`$`-anchored), tried at every split of the whitespace run. -/
def vatTail : List Char → Bool
  | [] => false
  | c :: tl => vatBody (c :: tl) || (isWS c && vatTail tl)

/-- The anchored shape `/^(?:[A-Z]{2}\s*)?[A-Z0-9 -]{8,20}$/i`. -/
def vatShape (v : List Char) : Bool :=
  vatBody v ||
  (match v with
   | a :: b :: rest => isLetterCh a && isLetterCh b && (vatBody rest || vatTail rest)
   | _ => false)

/-- The `/\d{8,}/` test: some position starts eight consecutive digits. -/
def hasDigitRun : List Char → Bool
  | [] => false
  | c :: tl => (8 ≤ (c :: tl).length && ((c :: tl).take 8).all isDigitCh) || hasDigitRun tl

/-- `looksLikeVat` of `parse.js`. -/
def looksLikeVatL (value : List Char) : Bool :=
  let v := cleanTextL value
  vatShape v && hasDigitRun v

/-- The closed disallowed set of `isBadBusinessName`. -/
def badNameSet : List (List Char) :=
  ["", "email", "e-mail", "phone", "telephone", "message", "subject", "name",
   "business name", "vat number", "registered address", "shipped from",
   "submit", "continue"].map (fun t => t.data)

/-- `isBadBusinessName` of `parse.js`: the label-normalized value is in the
closed disallowed set. -/
def isBadBusinessNameL (value : List Char) : Bool :=
  badNameSet.any (fun b => b = normalizeLabelL value)

/-- Heading prefixes banned by `looksLikeBusinessNameCandidate`. -/
def bannedStarts : List (List Char) :=
  ["how to contact", "returns policy", "got a question", "this seller ships from",
   "contact seller", "down chevron"].map (fun t => t.data)

/-- Exact field labels banned by `looksLikeBusinessNameCandidate`. -/
def bannedExact : List (List Char) :=
  ["vat number", "registered address", "business address", "shipped from",
   "ships from", "email", "phone", "telephone", "message", "subject"].map
    (fun t => t.data)

/-- `looksLikeBusinessNameCandidate` of `parse.js`: cleaned value non-empty,
not in the disallowed set, no banned heading prefix, no banned exact label,
and at most 120 characters. -/
def looksLikeBusinessNameCandidateL (value : List Char) : Bool :=
  let v := cleanTextL value
  if v = [] || isBadBusinessNameL v then false
  else
    let n := normalizeLabelL v
    if bannedStarts.any (fun x => startsWithL x n) then false
    else if bannedExact.any (fun x => x = n) then false
    else if 120 < v.length then false
    else true

/-- A JS object with string keys and values: bindings in insertion order. -/
abbrev JsObj := List (List Char × List Char)

/-- Key presence test (`result[key]` truthiness; stored values are
non-empty strings here, hence truthy). -/
def objHas (o : JsObj) (k : List Char) : Bool := o.any (fun kv => kv.1 = k)

/-- Assignment `o[k] = v`: update in place, else append. -/
def objSet (o : JsObj) (k v : List Char) : JsObj :=
  match o with
  | [] => [(k, v)]
  | (k', v') :: rest => if k' = k then (k', v) :: rest else (k', v') :: objSet rest k v

/-- Numeric value of an all-digit key. -/
def keyVal (k : List Char) : Nat := k.foldl (fun a c => a * 10 + (c.toNat - 48)) 0

/-- Canonical array-index keys, which JS own-key enumeration lists first in
ascending numeric order. -/
def isIndexKey (k : List Char) : Bool :=
  k ≠ [] && k.all isDigitCh && (k = ['0'] || k.headD ' ' ≠ '0') && keyVal k < 4294967295

/-- Insert into a list kept ascending by numeric key value. -/
def insertSorted (x : List Char × List Char) : JsObj → JsObj
  | [] => [x]
  | y :: rest =>
    if keyVal x.1 ≤ keyVal y.1 then x :: y :: rest else y :: insertSorted x rest

/-- `Object.entries` enumeration order: array-index keys ascending first,
then the remaining keys in insertion order. -/
def objEntries (o : JsObj) : JsObj :=
  ((o.filter (fun kv => isIndexKey kv.1)).foldl (fun acc kv => insertSorted kv acc) [])
    ++ o.filter (fun kv => !(isIndexKey kv.1))

/-- Runs of newlines to a single space: `replace(/\n+/g, ' ')`. -/
def collNlSp : List Char → List Char
  | [] => []
  | [c] => if c = '\n' then [' '] else [c]
  | c :: d :: rest =>
    if c = '\n' then
      if d = '\n' then collNlSp (d :: rest) else ' ' :: collNlSp (d :: rest)
    else c :: collNlSp (d :: rest)

/-- Runs of newlines to a comma-space: `replace(/\n+/g, ', ')`. -/
def collNlComma : List Char → List Char
  | [] => []
  | [c] => if c = '\n' then [',', ' '] else [c]
  | c :: d :: rest =>
    if c = '\n' then
      if d = '\n' then collNlComma (d :: rest) else ',' :: ' ' :: collNlComma (d :: rest)
    else c :: collNlComma (d :: rest)

/-- Key/value post-processing of the structural extractors:
`cleanText(stripTagsKeepLines(src)).replace(/\n+/g, ' ')`. -/
def pairText (src : List Char) : List Char := collNlSp (cleanTextL (stripTagsKeepLinesL src))

/-- First index at or after the start of `s` whose suffix satisfies `pred`. -/
def findPosAux (pred : List Char → Bool) : List Char → Nat → Option Nat
  | [], k => if pred [] then some k else none
  | c :: rest, k => if pred (c :: rest) then some k else findPosAux pred rest (k + 1)

/-- First suffix position satisfying `pred`. -/
def findPos (pred : List Char → Bool) (s : List Char) : Option Nat := findPosAux pred s 0

/-- Backtracking over the `</dt>` choices of
`/<dt[^>]*>([\s\S]*?)<\/dt>\s*<dd[^>]*>([\s\S]*?)<\/dd>/gi` within the
content region: each candidate closing tag must be followed by whitespace,
an opening `<dd...>`, and a closing `</dd>`; the first (lazy leftmost)
candidate that completes wins. Returns dt-content, dd-content, remainder. -/
def ddTryCloses (content : List Char) : Nat → Nat → Option (List Char × List Char × List Char)
  | _, 0 => none
  | off, fuel + 1 =>
    match firstIdxCI "</dt>".data (content.drop off) with
    | none => none
    | some i =>
      let k1 := off + i
      let w := (content.drop (k1 + 5)).dropWhile isWS
      let fail := ddTryCloses content (k1 + 1) fuel
      if startsWithCI "<dd".data w then
        let b := w.drop 3
        match firstIdx ['>'] b with
        | none => fail
        | some j2 =>
          let inner := b.drop (j2 + 1)
          match firstIdxCI "</dd>".data inner with
          | none => fail
          | some k2 => some (content.take k1, inner.take k2, inner.drop (k2 + 5))
      else fail

/-- Attempt the dt/dd pair pattern at the head of `s`. -/
def ddMatchAt (s : List Char) : Option (List Char × List Char × List Char) :=
  if startsWithCI "<dt".data s then
    let a := s.drop 3
    match firstIdx ['>'] a with
    | none => none
    | some j =>
      let content := a.drop (j + 1)
      ddTryCloses content 0 (content.length + 1)
  else none

/-- Global scan of `extractDtDdPairs` (`re.exec` loop with `result[k] = v`
guarded by `if (k && v)`). -/
def ddScan : Nat → List Char → JsObj → JsObj
  | 0, _, acc => acc
  | _ + 1, [], acc => acc
  | fuel + 1, c :: rest, acc =>
    match ddMatchAt (c :: rest) with
    | some (ksrc, vsrc, rem) =>
      let k := pairText ksrc
      let v := pairText vsrc
      ddScan fuel rem (if k ≠ [] && v ≠ [] then objSet acc k v else acc)
    | none => ddScan fuel rest acc

/-- `extractDtDdPairs` of `parse.js`. -/
def extractDtDdPairsL (html : List Char) : JsObj := ddScan html.length html []

/-- Head test for the closing cell tag `</t[hd]>`, case-insensitive. -/
def isThdClose (s : List Char) : Bool :=
  match s with
  | a :: b :: c :: d :: e :: _ =>
    a = '<' && b = '/' && lowCh c = 't' && (lowCh d = 'h' || lowCh d = 'd') && e = '>'
  | _ => false

/-- Match an opening cell tag `<t[hd][^>]*>` at the head; returns the
remainder after the `>`. -/
def openCell (s : List Char) : Option (List Char) :=
  match s with
  | a :: b :: c :: rest2 =>
    if a = '<' && lowCh b = 't' && (lowCh c = 'h' || lowCh c = 'd') then
      match firstIdx ['>'] rest2 with
      | some j => some (rest2.drop (j + 1))
      | none => none
    else none
  | _ => none

/-- Backtracking over the second cell's closing-tag choices of the table
row pattern: after `</t[hd]>` must come whitespace and `</tr>`. -/
def trTryClose2 (content1 : List Char) (region : List Char) :
    Nat → Nat → Option (List Char × List Char × List Char)
  | _, 0 => none
  | off, fuel + 1 =>
    match findPos isThdClose (region.drop off) with
    | none => none
    | some i =>
      let k2 := off + i
      let after2 := (region.drop (k2 + 5)).dropWhile isWS
      if startsWithCI "</tr>".data after2 then
        some (content1, region.take k2, after2.drop 5)
      else trTryClose2 content1 region (k2 + 1) fuel

/-- Backtracking over the first cell's closing-tag choices of
`/<tr[^>]*>\s*<t[hd][^>]*>([\s\S]*?)<\/t[hd]>\s*<t[hd][^>]*>([\s\S]*?)<\/t[hd]>\s*<\/tr>/gi`. -/
def trTryClose1 (region : List Char) : Nat → Nat → Option (List Char × List Char × List Char)
  | _, 0 => none
  | off, fuel + 1 =>
    match findPos isThdClose (region.drop off) with
    | none => none
    | some i =>
      let k1 := off + i
      let w := (region.drop (k1 + 5)).dropWhile isWS
      let deeper :=
        match openCell w with
        | none => none
        | some c2start => trTryClose2 (region.take k1) c2start 0 (c2start.length + 1)
      match deeper with
      | some r => some r
      | none => trTryClose1 region (k1 + 1) fuel

/-- Attempt the table row pair pattern at the head of `s`. -/
def trMatchAt (s : List Char) : Option (List Char × List Char × List Char) :=
  if startsWithCI "<tr".data s then
    let a := s.drop 3
    match firstIdx ['>'] a with
    | none => none
    | some j =>
      let b := (a.drop (j + 1)).dropWhile isWS
      match openCell b with
      | none => none
      | some region => trTryClose1 region 0 (region.length + 1)
  else none

/-- Global scan of `extractTablePairs`. -/
def trScan : Nat → List Char → JsObj → JsObj
  | 0, _, acc => acc
  | _ + 1, [], acc => acc
  | fuel + 1, c :: rest, acc =>
    match trMatchAt (c :: rest) with
    | some (ksrc, vsrc, rem) =>
      let k := pairText ksrc
      let v := pairText vsrc
      trScan fuel rem (if k ≠ [] && v ≠ [] then objSet acc k v else acc)
    | none => trScan fuel rest acc

/-- `extractTablePairs` of `parse.js`. -/
def extractTablePairsL (html : List Char) : JsObj := trScan html.length html []

/-- Key character class `[A-Za-z\s()\/&.-]` of the colon-pair line regex. -/
def colonKeyClass (c : Char) : Bool :=
  isLetterCh c || isWS c || c = '(' || c = ')' || c = '/' || c = '&' || c = '.' || c = '-'

/-- Match `^([A-Za-z][A-Za-z\s()\/&.-]{2,60})\s*:\s*(.+)$` against one line
(no newline inside): the key runs to the first colon, with its tail in the
class; a tail beyond 60 characters must be trailing whitespace absorbed by
`\s*`; the value is the rest after the colon, with leading whitespace
stripped greedily but at least one character kept. -/
def colonLinePair (line : List Char) : Option (List Char × List Char) :=
  match firstIdx [':'] line with
  | none => none
  | some i =>
    let pre := line.take i
    let post := line.drop (i + 1)
    match pre with
    | [] => none
    | h :: tl =>
      if isLetterCh h && tl.all colonKeyClass then
        let lenOK : Bool :=
          if tl.length ≤ 60 then decide (2 ≤ tl.length) else (tl.drop 60).all isWS
        if lenOK then
          if post = [] then none
          else
            let v := post.dropWhile isWS
            let val := if v = [] then post.drop (post.length - 1) else v
            some (h :: tl.take 60, val)
        else none
      else none

/-- `extractColonPairsFromText` of `parse.js`: per trimmed non-empty line,
first match only, first binding per key kept (`!result[key]`). -/
def extractColonPairsFromTextL (text : List Char) : JsObj :=
  let lines := ((splitNl text).map trimJS).filter (fun l => l ≠ [])
  lines.foldl (fun acc line =>
    match colonLinePair line with
    | none => acc
    | some (k, v) =>
      let key := cleanTextL k
      let val := cleanTextL v
      if key ≠ [] && val ≠ [] && !(objHas acc key) then objSet acc key val else acc) []

/-- Section headings that hard-stop multi-line capture. -/
def stopHeadings : List (List Char) :=
  ["this seller ships from", "how to contact a b&q verified seller",
   "returns policy", "got a question about your order"].map (fun t => t.data)

/-- All known labels of `extractLabelValueBlocks` (field labels, stop
headings, and contact-form noise), in source order. -/
def allLabels : List (List Char) :=
  (["business name", "vat number", "vat no", "registered address",
    "business address", "shipped from", "ships from"].map (fun t => t.data))
  ++ stopHeadings
  ++ (["email", "phone", "telephone", "message", "subject",
       "contact seller"].map (fun t => t.data))

/-- `isKnownLabel`: normalized line equals or starts with a known label. -/
def isKnownLabelL (line : List Char) : Bool :=
  let n := normalizeLabelL line
  allLabels.any (fun l => n = l || startsWithL l n)

/-- `isStopHeading`: normalized line equals or starts with a stop heading. -/
def isStopHeadingL (line : List Char) : Bool :=
  let n := normalizeLabelL line
  stopHeadings.any (fun h => n = h || startsWithL h n)

/-- `replace(/^[:\-–\s]+/, '')`: strip one leading run of separators. -/
def stripLeadSep (s : List Char) : List Char :=
  s.dropWhile (fun c => c = ':' || c = '-' || c = '–' || isWS c)

/-- Match `'^' + label + '\\s*[:\\-–]?\\s*'` case-insensitively at the head
(`.` in the label text is the regex wildcard); returns the remainder. -/
def matchLabelLoose : List Char → List Char → Option (List Char)
  | [], rest =>
    let r1 := rest.dropWhile isWS
    let r2 := match r1 with
      | c :: tl => if c = ':' || c = '-' || c = '–' then tl else r1
      | [] => r1
    some (r2.dropWhile isWS)
  | _ :: _, [] => none
  | p :: ps, c :: cs =>
    if p = '.' || lowCh p = lowCh c then matchLabelLoose ps cs else none

/-- `replace` with the loose label prefix regex: the remainder on a match,
the input unchanged otherwise. -/
def stripLabelLoose (label line : List Char) : List Char :=
  match matchLabelLoose label line with
  | some rem => rem
  | none => line

/-- `extractSameLineValue` of `parse.js`. -/
def extractSameLineValue (line label : List Char) : List Char :=
  let nLine := normalizeLabelL line
  let nLabel := normalizeLabelL label
  if nLine = nLabel then []
  else if startsWithL (nLabel ++ [' ']) nLine then
    match firstIdxCI label line with
    | some idx => stripLeadSep (cleanTextL (line.drop (idx + label.length)))
    | none => stripLabelLoose label (cleanTextL line)
  else []

/-- Tiny UI noise skipped (without consuming capture budget) during
multi-line collection. -/
def isNoiseLine (next : List Char) : Bool :=
  let n := normalizeLabelL next
  n = [] || ["copy", "open", "close", "down chevron"].any (fun x => x.data = n)

/-- Inner collection loop of `collectAfterLabel`: gather following lines
until a stop heading, a known label, or the line budget; noise lines are
skipped without terminating or counting. -/
def collectSub : List (List Char) → Nat → List (List Char)
  | [], _ => []
  | next :: rest, cap =>
    if cap = 0 then []
    else if isStopHeadingL next then []
    else if isKnownLabelL next then []
    else if isNoiseLine next then collectSub rest cap
    else next :: collectSub rest (cap - 1)

/-- Outer scan of `collectAfterLabel` over the line list: at each line that
matches a target label, push the same-line value if any, else the collected
following lines (joined with ", " when multi-line capture is on, otherwise
just the first); then continue scanning. -/
def caGo (targetLabels : List (List Char)) (maxLines : Nat) (keepMultiline : Bool) :
    List (List Char) → List (List Char)
  | [] => []
  | line :: rest =>
    let tail := caGo targetLabels maxLines keepMultiline rest
    let lineNorm := normalizeLabelL line
    let isTarget := targetLabels.any (fun l =>
      let nl := normalizeLabelL l
      lineNorm = nl || startsWithL nl lineNorm)
    if isTarget then
      match targetLabels.findSome? (fun l =>
          let same := extractSameLineValue line l
          if same ≠ [] then some same else none) with
      | some v => v :: tail
      | none =>
        let collected := collectSub rest maxLines
        if collected ≠ [] then
          (if keepMultiline then List.intercalate (", ".data) collected
           else collected.headD []) :: tail
        else tail
    else tail

/-- The four-field record produced by each extraction stage. -/
structure Fields where
  businessName : List Char
  vatNumber : List Char
  registeredAddress : List Char
  shippedFrom : List Char
deriving DecidableEq

/-- `extractLabelValueBlocks` of `parse.js`: clean and filter the lines,
collect candidates per field, filter business names through
`isBadBusinessName` and VAT values through `looksLikeVat`, and take the
first candidate of each. -/
def extractLabelValueBlocksL (text : List Char) : Fields :=
  let lines := ((splitNl text).map cleanTextL).filter (fun l => l ≠ [])
  let businessCandidates :=
    (caGo ["Business name".data] 3 false lines).filter (fun v => !(isBadBusinessNameL v))
  let vatCandidates :=
    (caGo (["VAT number", "VAT no", "VAT No."].map (fun t => t.data)) 3 false lines).filter
      looksLikeVatL
  let addressCandidates :=
    caGo (["Registered address", "Business address"].map (fun t => t.data)) 8 true lines
  let shippedFromCandidates :=
    caGo (["Shipped from", "Ships from"].map (fun t => t.data)) 2 false lines
      ++ caGo ["This seller ships from".data] 2 false lines
  ⟨businessCandidates.headD [], vatCandidates.headD [],
   addressCandidates.headD [], shippedFromCandidates.headD []⟩

/-- One lookup phase of `findValueByLabels` (`hit?.[1]` truthiness: on a
hit with an empty value the label loop continues). -/
def findByLabelsPhase (entries : JsObj) (labels : List (List Char))
    (tst : List Char → List Char → Bool) : Option (List Char) :=
  match labels with
  | [] => none
  | lab :: rest =>
    let n := normalizeLabelL lab
    match entries.find? (fun kv => tst (normalizeLabelL kv.1) n) with
    | some kv => if kv.2 ≠ [] then some kv.2 else findByLabelsPhase entries rest tst
    | none => findByLabelsPhase entries rest tst

/-- `findValueByLabels` of `parse.js`: exact normalized match over all
labels first, then contains match; empty string when nothing hits. -/
def findValueByLabelsL (map : JsObj) (labels : List (List Char)) : List Char :=
  let entries := objEntries map
  match findByLabelsPhase entries labels (fun k n => k = n) with
  | some v => v
  | none =>
    match findByLabelsPhase entries labels (fun k n => hasSub n k) with
    | some v => v
    | none => []

/-- Leftmost-match scan: try the positional matcher at every suffix,
left to right. -/
def scanFor {α : Type} (att : List Char → Option α) : Nat → List Char → Option α
  | 0, _ => none
  | fuel + 1, s =>
    match att s with
    | some r => some r
    | none =>
      match s with
      | [] => none
      | _ :: rest => scanFor att fuel rest

/-- Match `w1 \s+ w2` case-insensitively at the head: the whitespace run is
maximal and non-empty (both words start with non-whitespace). Returns the
remainder. -/
def matchW2 (w1 w2 s : List Char) : Option (List Char) :=
  if startsWithCI w1 s then
    let a := s.drop w1.length
    let ws := a.takeWhile isWS
    if ws ≠ [] && startsWithCI w2 (a.drop ws.length) then
      some ((a.drop ws.length).drop w2.length)
    else none
  else none

/-- Match a case-insensitive literal at the head; returns the remainder. -/
def litCI (lit s : List Char) : Option (List Char) :=
  if startsWithCI lit s then some (s.drop lit.length) else none

/-- Positions of newlines in a whitespace run, in descending order: the
candidate end positions of `\s*\n+` under greedy backtracking (latest
viable capture start first). -/
def nlPositions (run : List Char) : List Nat :=
  ((List.range run.length).filter (fun i => (run.drop i).headD ' ' = '\n')).reverse

/-- Backtracking of `\s*\n+(capture)` after a label: the capture must start
right after a newline of the whitespace run; candidates are explored with
the latest start first, and `capt` decides whether the capture group
matches from there. -/
def capAfterNl (capt : List Char → Option (List Char)) (rest : List Char) :
    Option (List Char) :=
  let run := rest.takeWhile isWS
  let after := rest.drop run.length
  (nlPositions run).findSome? (fun t => capt (run.drop (t + 1) ++ after))

/-- The capture group `([^\n]+)`: greedy to the next newline, non-empty. -/
def capNonNl (s : List Char) : Option (List Char) :=
  let c := s.takeWhile (fun ch => ch ≠ '\n')
  if c ≠ [] then some c else none

/-- The capture group `([A-Z0-9 -]{8,25})` (case-insensitive): greedy run
of class characters, at least 8, capped at 25. -/
def capVat (s : List Char) : Option (List Char) :=
  let c := s.takeWhile vatClass
  if 8 ≤ c.length then some (c.take 25) else none

/-- `/Business\s+name\s*\n+([^\n]+)/i` at the head. -/
def rxBNAt (s : List Char) : Option (List Char) :=
  matchW2 "Business".data "name".data s >>= capAfterNl capNonNl

/-- Match `VAT\s+(?:number|no\.?)` case-insensitively at the head; the two
alternatives diverge at their second character, so no cross-alternative
backtracking arises. Returns the remainder. -/
def matchVatLabel (s : List Char) : Option (List Char) :=
  if startsWithCI "VAT".data s then
    let a := s.drop 3
    let ws := a.takeWhile isWS
    if ws = [] then none
    else
      let b := a.drop ws.length
      if startsWithCI "number".data b then some (b.drop 6)
      else if startsWithCI "no".data b then
        let c := b.drop 2
        match c with
        | '.' :: tl => some tl
        | _ => some c
      else none
  else none

/-- `/VAT\s+(?:number|no\.?)\s*\n+([A-Z0-9 -]{8,25})/i` at the head. -/
def rxVatAt (s : List Char) : Option (List Char) :=
  matchVatLabel s >>= capAfterNl capVat

/-- Word boundary `\b` after a literal ending in a word character. -/
def wordBoundaryAfter (rest : List Char) : Bool :=
  match rest with
  | [] => true
  | c :: _ => !(isWordCh c)

/-- One of the heading alternatives of the address terminator, with the
trailing `\b`. -/
def addrHeadingAt (w : List Char) : Bool :=
  (match litCI "This seller ships from".data w with
   | some r => wordBoundaryAfter r
   | none => false) ||
  (match matchW2 "Shipped".data "from".data w with
   | some r => wordBoundaryAfter r
   | none => false) ||
  (match litCI "How to contact".data w with
   | some r => wordBoundaryAfter r
   | none => false) ||
  (match litCI "Returns policy".data w with
   | some r => wordBoundaryAfter r
   | none => false) ||
  (match litCI "Got a question".data w with
   | some r => wordBoundaryAfter r
   | none => false)

/-- The address capture terminator
`(?:\n\s*(?:headings)\b|\n{2,}|$)` tested at a position. -/
def addrTermAt (s : List Char) : Bool :=
  match s with
  | [] => true
  | '\n' :: tl =>
    addrHeadingAt (tl.dropWhile isWS) ||
    (match tl with
     | '\n' :: _ => true
     | _ => false)
  | _ => false

/-- Lazy capture `([\s\S]{0,250}?)` before the terminator: shortest length
first. -/
def addrCapTry (tail : List Char) : Option (List Char) :=
  (List.range 251).findSome? (fun L =>
    if addrTermAt (tail.drop L) then some (tail.take L) else none)

/-- The full registered-address fallback regex at the head. -/
def rxAddrAt (s : List Char) : Option (List Char) :=
  matchW2 "Registered".data "address".data s >>= fun rest =>
    let run := rest.takeWhile isWS
    let after := rest.drop run.length
    (nlPositions run).findSome? (fun t => addrCapTry (run.drop (t + 1) ++ after))

/-- `/This seller ships from\s+([^\n]+)/i` at the head: `\s+` is explored
greedily, giving back trailing non-newline whitespace to the capture when
nothing follows the run. -/
def shipsFromPhraseAt (s : List Char) : Option (List Char) :=
  litCI "This seller ships from".data s >>= fun rest =>
    let run := rest.takeWhile isWS
    let after := rest.drop run.length
    if run = [] then none
    else
      (((List.range run.length).reverse).map (fun i => i + 1)).findSome? (fun a =>
        let c := (run.drop a ++ after).takeWhile (fun ch => ch ≠ '\n')
        if c ≠ [] then some c else none)

/-- `/(?:Shipped\s+from|Ships\s+from)\s*\n+([^\n]+)/i` at the head; the two
alternatives diverge at their fifth character. -/
def shipsFrom2At (s : List Char) : Option (List Char) :=
  (match matchW2 "Shipped".data "from".data s with
   | some r => some r
   | none => matchW2 "Ships".data "from".data s) >>= capAfterNl capNonNl

/-- Character class `[A-Z0-9&'().,\- ]` of the uppercase company-name
heuristic (case-sensitive). -/
def upperNameClass (c : Char) : Bool :=
  isUpperCh c || isDigitCh c || c = '&' || c = apos || c = '(' || c = ')' ||
  c = '.' || c = ',' || c = '-' || c = ' '

/-- `/([A-Z][A-Z0-9&'().,\- ]{3,})\s*\n+\s*VAT\s+(?:number|no\.?)/` (no `i`
flag) at the head: greedy capture explored longest first; the glue
`\s*\n+\s*` covers exactly the whitespace runs containing a newline. -/
def upperBeforeVatAt (s : List Char) : Option (List Char) :=
  match s with
  | [] => none
  | c :: rest =>
    if isUpperCh c then
      let run := rest.takeWhile upperNameClass
      ((List.range (run.length + 1)).reverse).findSome? (fun k =>
        if k < 3 then none
        else
          let tail2 := rest.drop k
          let w := tail2.takeWhile isWS
          if w.any (fun ch => ch = '\n') && startsWithL "VAT".data (tail2.drop w.length) then
            let v2 := (tail2.drop w.length).drop 3
            let ws2 := v2.takeWhile isWS
            if ws2 ≠ [] then
              let v3 := v2.drop ws2.length
              if startsWithL "number".data v3 || startsWithL "no".data v3 then
                some (c :: rest.take k)
              else none
            else none
          else none)
    else none

/-- Line-above-label heuristic of `extractRegexFallback` steps 2 and 3:
scan the lines for a label line, then walk up to `back` preceding lines
(nearest first) for the first plausible business name; on failure at one
label line, continue scanning. -/
def aboveScan (isLab : List Char → Bool) (back : Nat) :
    List (List Char) → List (List Char) → List Char
  | _, [] => []
  | prevRev, line :: rest =>
    if isLab (normalizeLabelL line) then
      match (prevRev.take back).findSome? (fun cand =>
          if looksLikeBusinessNameCandidateL cand then some cand else none) with
      | some v => v
      | none => aboveScan isLab back (line :: prevRev) rest
    else aboveScan isLab back (line :: prevRev) rest

/-- Label test of fallback step 2 (`vat number` / `vat no` prefixes). -/
def isVatLabelNorm (n : List Char) : Bool :=
  n = "vat number".data || startsWithL "vat number".data n ||
  n = "vat no".data || startsWithL "vat no".data n

/-- Label test of fallback step 3 (`registered address` prefix). -/
def isRegAddrLabelNorm (n : List Char) : Bool :=
  n = "registered address".data || startsWithL "registered address".data n

/-- `extractRegexFallback` of `parse.js`: the four direct patterns, then
the line-above-VAT and line-above-address heuristics, then the uppercase
company-name heuristic, then the final business-name and VAT guards. -/
def extractRegexFallbackL (text : List Char) : Fields :=
  let t := cleanTextL text
  let lines := ((splitNl t).map cleanTextL).filter (fun l => l ≠ [])
  let fuel := t.length + 1
  let businessName0 := trimJS ((scanFor rxBNAt fuel t).getD [])
  let vatNumber0 := trimJS ((scanFor rxVatAt fuel t).getD [])
  let registeredAddress := trimJS (collNlComma ((scanFor rxAddrAt fuel t).getD []))
  let shippedFromA := trimJS ((scanFor shipsFromPhraseAt fuel t).getD [])
  let shippedFrom :=
    if shippedFromA = [] then trimJS ((scanFor shipsFrom2At fuel t).getD [])
    else shippedFromA
  let businessName1 :=
    if businessName0 = [] then aboveScan isVatLabelNorm 3 [] lines else businessName0
  let businessName2 :=
    if businessName1 = [] then aboveScan isRegAddrLabelNorm 4 [] lines else businessName1
  let businessName3 :=
    if businessName2 = [] then
      match scanFor upperBeforeVatAt fuel t with
      | some m1 =>
        if m1 ≠ [] && looksLikeBusinessNameCandidateL m1 then cleanTextL m1 else []
      | none => []
    else businessName2
  let businessName := if isBadBusinessNameL businessName3 then [] else businessName3
  let vatNumber := if vatNumber0 ≠ [] && !(looksLikeVatL vatNumber0) then [] else vatNumber0
  ⟨businessName, vatNumber, registeredAddress, shippedFrom⟩

/-- Spread `{...target, ...src}` step: enumerate the source's own keys and
assign each into the target (position kept on collision, value updated). -/
def spreadInto (target : JsObj) (src : JsObj) : JsObj :=
  (objEntries src).foldl (fun a kv => objSet a kv.1 kv.2) target

/-- Visible text of a page: `cleanText(stripTagsKeepLines(html))`. -/
def visibleTextOf (html : List Char) : List Char := cleanTextL (stripTagsKeepLinesL html)

/-- Stage 2 of `parseSellerPage`: dt/dd, table and colon pairs merged with
`{ ...colon, ...table, ...dtdd }`, looked up per field by label synonyms. -/
def labelValsOf (html : List Char) : Fields :=
  let visibleText := visibleTextOf html
  let dtdd := extractDtDdPairsL html
  let table := extractTablePairsL html
  let colon := extractColonPairsFromTextL visibleText
  let merged := spreadInto (spreadInto (spreadInto [] colon) table) dtdd
  ⟨findValueByLabelsL merged
      (["Business name", "Seller name", "Company name"].map (fun x => x.data)),
   findValueByLabelsL merged
      (["VAT number", "VAT No", "VAT no."].map (fun x => x.data)),
   findValueByLabelsL merged
      (["Registered address", "Business address", "Company address"].map (fun x => x.data)),
   findValueByLabelsL merged
      (["Shipped from", "Ships from", "This seller ships from"].map (fun x => x.data))⟩

/-- JS string `||`: the left operand unless it is the empty string. -/
def orL (a b : List Char) : List Char := if a = [] then b else a

/-- Trailing-section phrases cut out of the address, in source order. -/
def cutPhrases : List (List Char) :=
  ["this seller ships from", "how to contact a b&q verified seller",
   "got a question about your order", "returns policy"].map (fun t => t.data)

/-- `replace(/[,\s]+$/g, '')`: strip one trailing run of commas and
whitespace. -/
def dropTrailSep (s : List Char) : List Char :=
  (s.reverse.dropWhile (fun c => c = ',' || isWS c)).reverse

/-- One iteration of the address safety trim: when the phrase occurs in the
lowercased address, keep the prefix before it, trim it, and strip trailing
commas/whitespace (`slice(0, idx).trim().replace(/[,\s]+$/g, '')`). -/
def cutStep (addr : List Char) (p : List Char) : List Char :=
  match firstIdx p (lowL addr) with
  | some idx => dropTrailSep (trimJS (addr.take idx))
  | none => addr

/-- One result row of the scraper (`sellerId, businessName, vatNumber,
registeredAddress, shippedFrom, sourceUrl`). -/
structure SellerRecord where
  sellerId : Nat
  businessName : Str
  vatNumber : Str
  registeredAddress : Str
  shippedFrom : Str
  sourceUrl : Str
deriving DecidableEq

/-- Stage 1 of the cascade applied to a page: label-value blocks over the
visible text. -/
def blockStage (html : List Char) : Fields := extractLabelValueBlocksL (visibleTextOf html)

/-- Stage 3 of the cascade applied to a page: the regex fallback over the
visible text. -/
def rxStage (html : List Char) : Fields := extractRegexFallbackL (visibleTextOf html)

/-- The `||`-selected business-name candidate of `parseSellerPage`. -/
def bnSel (html : List Char) : List Char :=
  orL (orL (blockStage html).businessName (labelValsOf html).businessName)
    (rxStage html).businessName

/-- The `||`-selected VAT candidate of `parseSellerPage`. -/
def vatSel (html : List Char) : List Char :=
  orL (orL (blockStage html).vatNumber (labelValsOf html).vatNumber)
    (rxStage html).vatNumber

/-- The `||`-selected registered-address candidate of `parseSellerPage`. -/
def addrSel (html : List Char) : List Char :=
  orL (orL (blockStage html).registeredAddress (labelValsOf html).registeredAddress)
    (rxStage html).registeredAddress

/-- The `||`-selected shipped-from candidate of `parseSellerPage`. -/
def sfSel (html : List Char) : List Char :=
  orL (orL (blockStage html).shippedFrom (labelValsOf html).shippedFrom)
    (rxStage html).shippedFrom

/-- The business-name guard and cleanup applied after selection. -/
def bnFinish (v : List Char) : List Char :=
  cleanTextL (if isBadBusinessNameL v then [] else v)

/-- The VAT guard and cleanup applied after selection. -/
def vatFinish (v : List Char) : List Char :=
  cleanTextL (if v ≠ [] && !(looksLikeVatL v) then [] else v)

/-- The accumulated address text before the safety trim: selected value,
cleaned, with newline runs joined as ", ". -/
def addrJoined (html : List Char) : List Char := collNlComma (cleanTextL (addrSel html))

/-- The final shipped-from phrase fallback applied when the field is still
empty after the cascade. -/
def sfFinish (html v : List Char) : List Char :=
  if v = [] then
    match scanFor shipsFromPhraseAt ((visibleTextOf html).length + 1) (visibleTextOf html) with
    | some m1 => if m1 ≠ [] then cleanTextL m1 else v
    | none => v
  else v

/-- The four extracted fields of `parseSellerPage`, in source order: the
cascade selection with `||` per field (the `...Sel` values), the
business-name and VAT guards, `cleanText` plus newline-run joining, the
address safety trim over the cut phrases, and the final shipped-from
phrase fallback. -/
def parseFieldsL (html : List Char) : Fields :=
  ⟨bnFinish (bnSel html),
   vatFinish (vatSel html),
   cutPhrases.foldl cutStep (addrJoined html),
   sfFinish html (collNlComma (cleanTextL (sfSel html)))⟩

/-- `parseSellerPage` of `parse.js`: the extracted fields together with the
caller-supplied seller id and source URL. -/
def parseSellerPage (html : Str) (sellerId : Nat) (sourceUrl : Str) : SellerRecord :=
  let f := parseFieldsL html
  ⟨sellerId, f.businessName, f.vatNumber, f.registeredAddress, f.shippedFrom, sourceUrl⟩

/-- Value returned by `scrapeSeller`: either a parsed/empty record, or the
error object `{ sellerId, error }`. -/
inductive ScrapeResult where
  | ok (r : SellerRecord)
  | err (sellerId : Nat) (msg : Str)
deriving DecidableEq

/-- Test used by `main`: `!result.businessName && !result.vatNumber &&
!result.registeredAddress && !result.shippedFrom` (all four text fields
falsy, i.e. empty strings). -/
def allEmptyFields (r : SellerRecord) : Bool :=
  r.businessName = [] && r.vatNumber = [] && r.registeredAddress = [] && r.shippedFrom = []

/-- The per-seller locator `https://www.diy.com/verified-sellers/seller/{id}`. -/
def sellerUrl (sellerId : Nat) : Str :=
  "https://www.diy.com/verified-sellers/seller/".data ++ (toString sellerId).data

/-- `emptyResult`: the all-empty record meaning "no seller at this id". -/
def emptyResult (sellerId : Nat) (url : Str) : SellerRecord :=
  ⟨sellerId, [], [], [], [], url⟩

/-- `MAX_RETRIES` of both scraper variants. -/
def MAX_RETRIES : Nat := 2

/-- Block/challenge phrases checked against the visible text only. -/
def blockSignals : List Str :=
  ["access denied", "request unsuccessful", "service unavailable",
   "temporarily unavailable", "pardon our interruption",
   "sorry, you have been blocked", "verify you are human", "cf-chl",
   "bot detection"].map (fun t => t.data)

/-- Signals safe to check against the full HTML. -/
def fullHtmlSignals : List Str :=
  ["incapsula", "distil", "/_sec/"].map (fun t => t.data)

/-- The JS regex `.`: any character except the four line terminators. -/
def isDotCh (c : Char) : Bool :=
  c ≠ '\n' && c ≠ '\r' && c.toNat ≠ 8232 && c.toNat ≠ 8233

/-- Alternative `w1.{0,20}w2` of the captcha regex at the head of `s`. -/
def dotGapAt (w1 w2 s : Str) : Bool :=
  startsWithL w1 s &&
    (List.range 21).any (fun k =>
      ((s.drop w1.length).take k).all isDotCh &&
      startsWithL w2 ((s.drop w1.length).drop k))

/-- Scan every suffix with a boolean matcher. -/
def existsPos (att : Str → Bool) : Str → Bool
  | [] => att []
  | c :: rest => att (c :: rest) || existsPos att rest

/-- The captcha-element test
`/solve.{0,20}captcha|complete.{0,20}captcha|captcha-container|captcha-box|g-recaptcha[^"]/i`
against the (lowercased) visible text. -/
def captchaSignal (visibleText : Str) : Bool :=
  existsPos (fun s => dotGapAt "solve".data "captcha".data s) visibleText ||
  existsPos (fun s => dotGapAt "complete".data "captcha".data s) visibleText ||
  hasSub "captcha-container".data visibleText ||
  hasSub "captcha-box".data visibleText ||
  existsPos (fun s => startsWithL "g-recaptcha".data s &&
    (match s.drop 11 with
     | c :: _ => c ≠ '"'
     | [] => false)) visibleText

/-- `isBlockedHtml` of `scrape.mjs`: strip scripts/styles to spaces and
lowercase for the visible-text checks; status 503 is blocked outright;
then phrase signals, full-HTML signals, the captcha-element regex, and the
final-URL redirect check — in source order. -/
def isBlockedHtml (html : Str) (status : Option Nat) (finalUrl : Str) : Bool :=
  let visibleText := lowL (stripBlock "<style".data "</style>".data [' ']
      (stripBlock "<script".data "</script>".data [' '] html))
  if status = some 503 then true
  else if blockSignals.any (fun sg => hasSub sg visibleText) then true
  else if fullHtmlSignals.any (fun sg => hasSub sg (lowL html)) then true
  else if captchaSignal visibleText then true
  else if finalUrl ≠ [] &&
      (hasSub "challenge".data (lowL finalUrl) || hasSub "captcha".data (lowL finalUrl) ||
       hasSub "blocked".data (lowL finalUrl)) then true
  else false

/-- The early not-found markers checked against the raw HTML. -/
def notFoundEl (html : Str) : Bool :=
  hasSub "data-test-id=\"seller-not-found\"".data html ||
  hasSub "seller details cannot be found".data html

/-- The explicit not-found wording checked against the lowercased body
when extraction came back all-empty. -/
def notFoundText (html : Str) : Bool :=
  hasSub "page not found".data (lowL html) ||
  hasSub "seller not found".data (lowL html) ||
  hasSub ("sorry, we can".data ++ [apos] ++ "t find".data) (lowL html) ||
  hasSub "sorry, we can&apos;t find".data (lowL html)

/-- `status ?? 'unknown'` rendered into the blocked error message. -/
def statusStr : Option Nat → Str
  | some s => (toString s).data
  | none => "unknown".data

/-- Outcome of one `page.goto` attempt in the browser variant: a thrown
error (timeout, transport failure), or a loaded page with its HTTP status
(`none` when no response object), final URL, and rendered HTML. -/
inductive PageLoad where
  | fail (msg : Str)
  | page (status : Option Nat) (finalUrl : Str) (html : Str)

/-- Instrumentation of the browser fetch client: `page.goto` calls,
`parseSellerPage` invocations, the sleeps awaited, and debug HTML dumps. -/
structure BTrace where
  fetches : Nat
  parses : Nat
  sleeps : List Nat
  debugSaves : List Str
deriving DecidableEq

/-- The attempt loop of the browser `scrapeSeller`: hard not-found
statuses (404/410) return `Empty` at once; the early not-found markers
return `Empty`; a blocked page is dumped, retried while the budget allows
(sleeping `4000 * attempt`), then surfaced as a blocked error; an all-empty
parse is dumped and either confirmed `Empty` by not-found wording, retried,
or — on budget exhaustion — returned as the all-empty parsed record; any
thrown error is retried then surfaced with its message. -/
def scrapeSellerBGo (att : Nat → PageLoad) (sellerId : Nat) (url : Str) :
    Nat → Nat → BTrace → ScrapeResult × BTrace
  | 0, _, tr => (ScrapeResult.err sellerId "Unknown scraping failure".data, tr)
  | fuel + 1, attempt, tr =>
    let tr1 := { tr with fetches := tr.fetches + 1 }
    match att attempt with
    | PageLoad.fail msg =>
      if attempt < MAX_RETRIES then
        scrapeSellerBGo att sellerId url fuel (attempt + 1)
          { tr1 with sleeps := tr1.sleeps ++ [4000 * attempt] }
      else (ScrapeResult.err sellerId msg, tr1)
    | PageLoad.page status finalUrl html =>
      if status = some 404 ∨ status = some 410 then
        (ScrapeResult.ok (emptyResult sellerId url), tr1)
      else if notFoundEl html then
        (ScrapeResult.ok (emptyResult sellerId url), tr1)
      else if isBlockedHtml html status finalUrl then
        let tr2 := { tr1 with debugSaves := tr1.debugSaves ++ ["blocked".data] }
        if attempt < MAX_RETRIES then
          scrapeSellerBGo att sellerId url fuel (attempt + 1)
            { tr2 with sleeps := tr2.sleeps ++ [4000 * attempt] }
        else (ScrapeResult.err sellerId
          ("Blocked/challenge page (HTTP ".data ++ statusStr status ++ ")".data), tr2)
      else
        let parsed := parseSellerPage html sellerId url
        let tr2 := { tr1 with parses := tr1.parses + 1 }
        if allEmptyFields parsed then
          let tr3 := { tr2 with debugSaves := tr2.debugSaves ++ ["empty".data] }
          if notFoundText html then
            (ScrapeResult.ok (emptyResult sellerId url), tr3)
          else if attempt < MAX_RETRIES then
            scrapeSellerBGo att sellerId url fuel (attempt + 1)
              { tr3 with sleeps := tr3.sleeps ++ [4000 * attempt] }
          else (ScrapeResult.ok parsed, tr3)
        else (ScrapeResult.ok parsed, tr2)

/-- The browser `scrapeSeller` for one id, over an oracle giving each
attempt's page-load outcome. -/
def scrapeSellerB (att : Nat → PageLoad) (sellerId : Nat) : ScrapeResult × BTrace :=
  scrapeSellerBGo att sellerId (sellerUrl sellerId) (MAX_RETRIES + 1) 1 ⟨0, 0, [], []⟩

/-- Nested address object of the seller API response. -/
structure ApiAddr where
  street1 : Option Str
  street2 : Option Str
  city : Option Str
  state : Option Str
  postCode : Option Str
  country : Option Str

/-- `data.attributes` of the seller API JSON. -/
structure ApiAttrs where
  corporateName : Option Str
  sellerName : Option Str
  taxIdentificationNumber : Option Str
  shippingCountry : Option Str
  corporateContactInformation : Option ApiAddr
  contactInformation : Option ApiAddr

/-- Outcome of one `fetch` attempt in the API variant: a thrown network
error, or a response with its HTTP status, the server-suggested
Retry-After value when present (the code never reads it), and the JSON
body — `Except.error` when `resp.json()` throws, `none` when
`json?.data?.attributes` is absent. -/
inductive ApiResponse where
  | netFail (msg : Str)
  | resp (status : Nat) (retryAfter : Option Nat) (body : Except Str (Option ApiAttrs))

/-- JS `x || ''` over an optional JSON string field. -/
def optStr (o : Option Str) : Str := o.getD []

/-- `parseSellerApiResponse` of the API variant: flatten the attributes,
with `corporateContactInformation` preferred over `contactInformation`,
non-empty address parts trimmed and joined with ", ". -/
def parseSellerApiResponse (attrs? : Option ApiAttrs) (sellerId : Nat) (sourceUrl : Str) :
    SellerRecord :=
  match attrs? with
  | none => emptyResult sellerId sourceUrl
  | some attrs =>
    let businessName := trimJS (orL (optStr attrs.corporateName) (optStr attrs.sellerName))
    let vatNumber := trimJS (optStr attrs.taxIdentificationNumber)
    let shippedFrom := trimJS (optStr attrs.shippingCountry)
    let addr := match attrs.corporateContactInformation with
      | some a => some a
      | none => attrs.contactInformation
    let registeredAddress := match addr with
      | none => []
      | some a =>
        List.intercalate ", ".data
          (([optStr a.street1, optStr a.street2, optStr a.city, optStr a.state,
             optStr a.postCode, optStr a.country].filter (fun s => s ≠ [])).map trimJS)
    ⟨sellerId, businessName, vatNumber, registeredAddress, shippedFrom, sourceUrl⟩

/-- Instrumentation of the API fetch client: `fetch` calls, sleeps
awaited, and `resp.json()` parses. -/
structure ATrace where
  fetches : Nat
  sleeps : List Nat
  jsonParses : Nat
deriving DecidableEq

/-- The attempt loop of the API `scrapeSeller`: 404/410 return `Empty`
at once; any other non-2xx status is retried with a `4000 * attempt`
sleep while the budget allows and then surfaced as `API HTTP {status}` —
no Retry-After header is ever consulted; on a 2xx response the JSON body
is parsed and flattened; a thrown error is retried then surfaced. -/
def scrapeSellerApiGo (att : Nat → ApiResponse) (sellerId : Nat) (url : Str) :
    Nat → Nat → ATrace → ScrapeResult × ATrace
  | 0, _, tr => (ScrapeResult.err sellerId "Unknown scraping failure".data, tr)
  | fuel + 1, attempt, tr =>
    let tr1 := { tr with fetches := tr.fetches + 1 }
    match att attempt with
    | ApiResponse.netFail msg =>
      if attempt < MAX_RETRIES then
        scrapeSellerApiGo att sellerId url fuel (attempt + 1)
          { tr1 with sleeps := tr1.sleeps ++ [4000 * attempt] }
      else (ScrapeResult.err sellerId msg, tr1)
    | ApiResponse.resp status _ body =>
      if status = 404 ∨ status = 410 then
        (ScrapeResult.ok (emptyResult sellerId url), tr1)
      else if 200 ≤ status ∧ status ≤ 299 then
        match body with
        | Except.error msg =>
          let tr2 := { tr1 with jsonParses := tr1.jsonParses + 1 }
          if attempt < MAX_RETRIES then
            scrapeSellerApiGo att sellerId url fuel (attempt + 1)
              { tr2 with sleeps := tr2.sleeps ++ [4000 * attempt] }
          else (ScrapeResult.err sellerId msg, tr2)
        | Except.ok attrs? =>
          let tr2 := { tr1 with jsonParses := tr1.jsonParses + 1 }
          (ScrapeResult.ok (parseSellerApiResponse attrs? sellerId url), tr2)
      else
        if attempt < MAX_RETRIES then
          scrapeSellerApiGo att sellerId url fuel (attempt + 1)
            { tr1 with sleeps := tr1.sleeps ++ [4000 * attempt] }
        else (ScrapeResult.err sellerId ("API HTTP ".data ++ (toString status).data), tr1)

/-- The API `scrapeSeller` for one id, over an oracle giving each fetch
attempt's outcome. -/
def scrapeSellerApi (att : Nat → ApiResponse) (sellerId : Nat) : ScrapeResult × ATrace :=
  scrapeSellerApiGo att sellerId (sellerUrl sellerId) (MAX_RETRIES + 1) 1 ⟨0, [], 0⟩

/-- State threaded through `main`'s loop, instrumented with the list of ids
for which `scrapeSeller` was invoked, the rows appended to the CSV sink, and
the ledger flushes performed so far (recorded as `(processedThisRun, snapshot)`
pairs, in order). -/
structure RunState where
  progress : Ledger
  appended : List SellerRecord
  fetched : List Nat
  processedThisRun : Nat
  found : Nat
  errors : Nat
  flushes : List (Nat × Ledger)
deriving DecidableEq

/-- Loop body of `main` for one id: skip when the ledger already has any
entry (`if (progress[id]) continue`), otherwise fetch, classify the outcome
into an `error` / `empty` / `ok` entry, append the CSV row for found
records, and flush the ledger after every 10th processed id
(`if (processedThisRun % 10 === 0) saveProgress(progress)`). -/
def mainStep (fetch : Nat → ScrapeResult) (st : RunState) (id : Nat) : RunState :=
  match ledgerGet st.progress id with
  | some _ => st
  | none =>
    let processed := st.processedThisRun + 1
    let st1 :=
      match fetch id with
      | .err _ m =>
        { st with progress := setEntry st.progress id ⟨"error".data, some m⟩,
                  errors := st.errors + 1,
                  fetched := st.fetched ++ [id],
                  processedThisRun := processed }
      | .ok r =>
        if allEmptyFields r then
          { st with progress := setEntry st.progress id ⟨"empty".data, none⟩,
                    fetched := st.fetched ++ [id],
                    processedThisRun := processed }
        else
          { st with progress := setEntry st.progress id ⟨"ok".data, none⟩,
                    found := st.found + 1,
                    appended := st.appended ++ [r],
                    fetched := st.fetched ++ [id],
                    processedThisRun := processed }
    if processed % 10 = 0 then
      { st1 with flushes := st1.flushes ++ [(processed, st1.progress)] }
    else st1

/-- Initial loop state for a run starting from a loaded ledger. -/
def initState (p0 : Ledger) : RunState :=
  { progress := p0, appended := [], fetched := [], processedThisRun := 0,
    found := 0, errors := 0, flushes := [] }

/-- The id range walked by `main`: `for (let id = FROM_ID; id <= TO_ID; id++)`. -/
def idRange (fromId toId : Nat) : List Nat :=
  List.range' fromId (toId + 1 - fromId)

/-- The loop of `main` over the whole range (no abnormal exit). -/
def mainLoop (fetch : Nat → ScrapeResult) (fromId toId : Nat) (p0 : Ledger) : RunState :=
  (idRange fromId toId).foldl (mainStep fetch) (initState p0)

/-- A complete normal run of `main`: the loop followed by the
`finally { saveProgress(progress) }` flush. -/
def runMain (fetch : Nat → ScrapeResult) (fromId toId : Nat) (p0 : Ledger) : RunState :=
  let s := mainLoop fetch fromId toId p0
  { s with flushes := s.flushes ++ [(s.processedThisRun, s.progress)] }

/-- How a run terminates. `exn k` is an unhandled exception thrown after `k`
loop iterations; `intSignal k` is an external interrupt (e.g. SIGINT)
delivered after `k` loop iterations. -/
inductive ExitCause where
  | normal
  | exn (afterIters : Nat)
  | intSignal (afterIters : Nat)
deriving DecidableEq

/-- A run of `main` under a given exit cause. A JS `try/finally` runs its
finalizer on normal completion and on a thrown exception, but an interrupt
signal with no registered handler terminates the Node process immediately:
the source registers no `process.on` signal handler, so on `intSignal` the
loop stops at an iteration boundary and no final `saveProgress` happens. -/
def runMainExit (fetch : Nat → ScrapeResult) (fromId toId : Nat) (p0 : Ledger)
    (cause : ExitCause) : RunState :=
  match cause with
  | .normal => runMain fetch fromId toId p0
  | .exn k =>
    let s := ((idRange fromId toId).take k).foldl (mainStep fetch) (initState p0)
    { s with flushes := s.flushes ++ [(s.processedThisRun, s.progress)] }
  | .intSignal k =>
    ((idRange fromId toId).take k).foldl (mainStep fetch) (initState p0)

lemma ledgerGet_setEntry_ne (m : Ledger) (id k : Nat) (e : Entry) (h : k ≠ id) :
    ledgerGet (setEntry m id e) k = ledgerGet m k := by
  induction m with
  | nil =>
    simp only [setEntry, ledgerGet]
    rw [if_neg (fun h' => h h'.symm)]
  | cons kv rest ih =>
    obtain ⟨k', v'⟩ := kv
    by_cases hk : k' = id
    · subst hk
      simp only [setEntry, if_pos rfl, ledgerGet]
      rw [if_neg (fun h' => h h'.symm), if_neg (fun h' => h h'.symm)]
    · simp only [setEntry, if_neg hk, ledgerGet]
      by_cases hkk : k' = k
      · simp [hkk]
      · simp [hkk, ih]

lemma mainStep_skip (fetch : Nat → ScrapeResult) (st : RunState) (i : Nat) (v : Entry)
    (h : ledgerGet st.progress i = some v) : mainStep fetch st i = st := by
  simp [mainStep, h]

lemma mainStep_progress_ne (fetch : Nat → ScrapeResult) (st : RunState) (i j : Nat)
    (hne : j ≠ i) :
    ledgerGet (mainStep fetch st i).progress j = ledgerGet st.progress j := by
  cases hl : ledgerGet st.progress i with
  | some v => rw [mainStep_skip fetch st i v hl]
  | none =>
    simp only [mainStep, hl]
    cases fetch i with
    | err s m => split <;> simp [ledgerGet_setEntry_ne _ _ _ _ hne]
    | ok r =>
      by_cases he : allEmptyFields r = true <;>
        simp [he] <;> split <;> simp [ledgerGet_setEntry_ne _ _ _ _ hne]

lemma mainStep_fetched (fetch : Nat → ScrapeResult) (st : RunState) (i : Nat) :
    (mainStep fetch st i).fetched =
      if (ledgerGet st.progress i).isNone then st.fetched ++ [i] else st.fetched := by
  cases hl : ledgerGet st.progress i with
  | some v => rw [mainStep_skip fetch st i v hl]; simp
  | none =>
    simp only [mainStep, hl, Option.isNone_none, if_pos]
    cases fetch i with
    | err s m => split <;> simp
    | ok r => by_cases he : allEmptyFields r = true <;> simp [he] <;> split <;> simp

lemma mainStep_appended (fetch : Nat → ScrapeResult) (st : RunState) (i : Nat) :
    (mainStep fetch st i).appended = st.appended ∨
    (∃ r, fetch i = ScrapeResult.ok r ∧ ledgerGet st.progress i = none ∧
      (mainStep fetch st i).appended = st.appended ++ [r]) := by
  cases hl : ledgerGet st.progress i with
  | some v => rw [mainStep_skip fetch st i v hl]; left; rfl
  | none =>
    cases hf : fetch i with
    | err s m =>
      left
      simp only [mainStep, hl, hf]
      split <;> rfl
    | ok r =>
      by_cases he : allEmptyFields r = true
      · left
        simp only [mainStep, hl, hf, he, if_true]
        split <;> rfl
      · right
        refine ⟨r, rfl, rfl, ?_⟩
        simp only [mainStep, hl, hf, he, Bool.false_eq_true, if_false]
        split <;> rfl

lemma c1Inv_def (fetch : Nat → ScrapeResult)
    (hf : ∀ j r, fetch j = ScrapeResult.ok r → r.sellerId = j)
    (id : Nat) (e : Entry) (st : RunState) (i : Nat)
    (h1 : ledgerGet st.progress id = some e) (h2 : id ∉ st.fetched)
    (h3 : ∀ r ∈ st.appended, r.sellerId ≠ id) :
    ledgerGet (mainStep fetch st i).progress id = some e ∧
    id ∉ (mainStep fetch st i).fetched ∧
    ∀ r ∈ (mainStep fetch st i).appended, r.sellerId ≠ id := by
  cases hl : ledgerGet st.progress i with
  | some v => rw [mainStep_skip fetch st i v hl]; exact ⟨h1, h2, h3⟩
  | none =>
    have hne : id ≠ i := by rintro rfl; rw [h1] at hl; exact Option.noConfusion hl
    refine ⟨by rw [mainStep_progress_ne fetch st i id hne, h1], ?_, ?_⟩
    · rw [mainStep_fetched, hl]
      simp only [Option.isNone_none, if_pos, List.mem_append, List.mem_singleton]
      rintro (h | h)
      · exact h2 h
      · exact hne h
    · rcases mainStep_appended fetch st i with ha | ⟨r, hr, _, ha⟩
      · rw [ha]; exact h3
      · rw [ha]
        intro r' hr'
        rcases List.mem_append.1 hr' with h | h
        · exact h3 r' h
        · rw [List.mem_singleton.1 h]
          rw [hf i r hr]
          exact fun h' => hne h'.symm

lemma foldl_c1Inv (fetch : Nat → ScrapeResult)
    (hf : ∀ j r, fetch j = ScrapeResult.ok r → r.sellerId = j)
    (id : Nat) (e : Entry) :
    ∀ (ids : List Nat) (st : RunState),
      ledgerGet st.progress id = some e → id ∉ st.fetched →
      (∀ r ∈ st.appended, r.sellerId ≠ id) →
      ledgerGet (ids.foldl (mainStep fetch) st).progress id = some e ∧
      id ∉ (ids.foldl (mainStep fetch) st).fetched ∧
      ∀ r ∈ (ids.foldl (mainStep fetch) st).appended, r.sellerId ≠ id := by
  intro ids
  induction ids with
  | nil => intro st h1 h2 h3; exact ⟨h1, h2, h3⟩
  | cons i rest ih =>
    intro st h1 h2 h3
    obtain ⟨g1, g2, g3⟩ := c1Inv_def fetch hf id e st i h1 h2 h3
    exact ih (mainStep fetch st i) g1 g2 g3

lemma foldl_fetched (fetch : Nat → ScrapeResult) (p0 : Ledger) :
    ∀ (ids : List Nat), ids.Nodup →
    ∀ st : RunState, (∀ j ∈ ids, ledgerGet st.progress j = ledgerGet p0 j) →
    (ids.foldl (mainStep fetch) st).fetched
      = st.fetched ++ ids.filter (fun j => (ledgerGet p0 j).isNone) := by
  intro ids
  induction ids with
  | nil => intro _ st _; simp
  | cons i rest ih =>
    intro hnd st hsame
    have hi : ledgerGet st.progress i = ledgerGet p0 i := hsame i (by simp)
    have hrest : ∀ j ∈ rest, ledgerGet (mainStep fetch st i).progress j = ledgerGet p0 j := by
      intro j hj
      have hji : j ≠ i := by
        rintro rfl
        exact (List.nodup_cons.1 hnd).1 hj
      rw [mainStep_progress_ne fetch st i j hji]
      exact hsame j (by simp [hj])
    have := ih (List.nodup_cons.1 hnd).2 (mainStep fetch st i) hrest
    rw [List.foldl_cons, this, mainStep_fetched, hi]
    by_cases hn : (ledgerGet p0 i).isNone
    · simp [hn, List.filter_cons]
    · simp [hn, List.filter_cons]

/-- Claim C1 (idempotent resume): for every id that already has a ledger
entry of any status when the run starts, a run over a containing range
performs no fetch for it, leaves its entry unchanged, and appends no CSV
row for it; the set of fetched ids is exactly the ids of the range without
a prior entry. -/
theorem c1_idempotent_resume (fetch : Nat → ScrapeResult)
    (hf : ∀ j r, fetch j = ScrapeResult.ok r → r.sellerId = j)
    (fromId toId : Nat) (p0 : Ledger) (id : Nat) (e : Entry)
    (hin1 : fromId ≤ id) (hin2 : id ≤ toId)
    (hp : ledgerGet p0 id = some e) :
    ledgerGet (runMain fetch fromId toId p0).progress id = some e ∧
    id ∉ (runMain fetch fromId toId p0).fetched ∧
    (∀ r ∈ (runMain fetch fromId toId p0).appended, r.sellerId ≠ id) ∧
    (runMain fetch fromId toId p0).fetched
      = (idRange fromId toId).filter (fun j => (ledgerGet p0 j).isNone) := by
  have hrm : (runMain fetch fromId toId p0).progress = (mainLoop fetch fromId toId p0).progress ∧
      (runMain fetch fromId toId p0).fetched = (mainLoop fetch fromId toId p0).fetched ∧
      (runMain fetch fromId toId p0).appended = (mainLoop fetch fromId toId p0).appended := by
    refine ⟨rfl, rfl, rfl⟩
  obtain ⟨e1, e2, e3⟩ := hrm
  have h0 : ledgerGet (initState p0).progress id = some e := hp
  obtain ⟨g1, g2, g3⟩ := foldl_c1Inv fetch hf id e (idRange fromId toId) (initState p0) h0
    (by simp [initState]) (by simp [initState])
  have hnd : (idRange fromId toId).Nodup := by
    unfold idRange
    exact List.nodup_range' _ _
  have hfetched := foldl_fetched fetch p0 (idRange fromId toId) hnd (initState p0)
    (fun j _ => rfl)
  rw [e1, e2, e3]
  refine ⟨g1, g2, g3, ?_⟩
  unfold mainLoop
  rw [hfetched]
  simp [initState]

/-- Fetch oracle for the C1 witness: every id yields a found record. -/
def c1F : Nat → ScrapeResult := fun j => ScrapeResult.ok ⟨j, "B".data, [], [], [], "u".data⟩

/-- Initial ledger for the C1 witness: id 2 already has an error entry. -/
def c1P0 : Ledger := [(2, ⟨"error".data, some "boom".data⟩)]

/-- Witness for C1 at a concrete run: range [1,3], id 2 pre-recorded. -/
theorem c1_idempotent_resume_witness :
    ledgerGet (runMain c1F 1 3 c1P0).progress 2 = some ⟨"error".data, some "boom".data⟩ ∧
    2 ∉ (runMain c1F 1 3 c1P0).fetched ∧
    (∀ r ∈ (runMain c1F 1 3 c1P0).appended, r.sellerId ≠ 2) ∧
    (runMain c1F 1 3 c1P0).fetched
      = (idRange 1 3).filter (fun j => (ledgerGet c1P0 j).isNone) :=
  c1_idempotent_resume c1F
    (by
      intro j r h
      simp only [c1F] at h
      injection h with h'
      rw [← h'])
    1 3 c1P0 2 ⟨"error".data, some "boom".data⟩ (by decide) (by decide) (by decide)

/-- Bounded-loss invariant: every multiple of 10 reached by the processed
counter has a corresponding recorded ledger flush. -/
def flushInv (st : RunState) : Prop :=
  ∀ m : Nat, 0 < m → 10 * m ≤ st.processedThisRun → ∃ L, (10 * m, L) ∈ st.flushes

lemma mainStep_flushInv (fetch : Nat → ScrapeResult) (st : RunState) (i : Nat)
    (h : flushInv st) : flushInv (mainStep fetch st i) := by
  cases hl : ledgerGet st.progress i with
  | some v => rw [mainStep_skip fetch st i v hl]; exact h
  | none =>
    have gen : ∀ st1 : RunState, st1.processedThisRun = st.processedThisRun + 1 →
        st1.flushes = st.flushes →
        flushInv (if (st.processedThisRun + 1) % 10 = 0 then
            { st1 with flushes := st1.flushes ++ [(st.processedThisRun + 1, st1.progress)] }
          else st1) := by
      intro st1 hp hfl m hm hle
      by_cases h10 : (st.processedThisRun + 1) % 10 = 0
      · rw [if_pos h10] at hle ⊢
        simp only [hp] at hle
        rcases Nat.eq_or_lt_of_le hle with heq | hlt
        · exact ⟨st1.progress, by simp [hfl, heq]⟩
        · have hle' : 10 * m ≤ st.processedThisRun := by omega
          obtain ⟨L, hL⟩ := h m hm hle'
          exact ⟨L, by simp [hfl, hL]⟩
      · rw [if_neg h10] at hle ⊢
        rw [hp] at hle
        rcases Nat.eq_or_lt_of_le hle with heq | hlt
        · exact absurd (heq ▸ Nat.mul_mod_right 10 m) h10
        · have hle' : 10 * m ≤ st.processedThisRun := by omega
          obtain ⟨L, hL⟩ := h m hm hle'
          exact ⟨L, by simp [hfl, hL]⟩
    simp only [mainStep, hl]
    cases hfi : fetch i with
    | err s msg => exact gen _ rfl rfl
    | ok r =>
      by_cases he : allEmptyFields r = true
      · simp only [he, if_true]
        exact gen _ rfl rfl
      · simp only [he, Bool.false_eq_true, if_false]
        exact gen _ rfl rfl

lemma foldl_flushInv (fetch : Nat → ScrapeResult) :
    ∀ (ids : List Nat) (st : RunState), flushInv st →
      flushInv (ids.foldl (mainStep fetch) st) := by
  intro ids
  induction ids with
  | nil => intro st h; exact h
  | cons i rest ih => intro st h; exact ih (mainStep fetch st i) (mainStep_flushInv fetch st i h)

lemma flushInv_final_append (st : RunState) (x : Nat × Ledger) (h : flushInv st) :
    flushInv { st with flushes := st.flushes ++ [x] } := by
  intro m hm hle
  obtain ⟨L, hL⟩ := h m hm hle
  exact ⟨L, by simp [hL]⟩

/-- Claim C2, amended: the ledger is flushed after every 10th processed id,
and a final flush of the current ledger happens on normal completion and on
an unhandled exception (the `finally` block); an external interrupt signal
is NOT handled — no signal handler is registered, so a run ended by
`intSignal` has no final flush and only the periodic flushes. -/
theorem c2_flush_on_exit_amended (fetch : Nat → ScrapeResult) (fromId toId : Nat)
    (p0 : Ledger) (cause : ExitCause) :
    ((∀ k, cause ≠ ExitCause.intSignal k) →
      (runMainExit fetch fromId toId p0 cause).flushes.getLast?
        = some ((runMainExit fetch fromId toId p0 cause).processedThisRun,
                (runMainExit fetch fromId toId p0 cause).progress)) ∧
    flushInv (runMainExit fetch fromId toId p0 cause) := by
  have hinv0 : flushInv (initState p0) := by
    intro m hm hle
    simp [initState] at hle
    omega
  cases cause with
  | normal =>
    constructor
    · intro _
      simp [runMainExit, runMain, List.getLast?_concat]
    · exact flushInv_final_append _ _ (foldl_flushInv fetch _ _ hinv0)
  | exn k =>
    constructor
    · intro _
      simp [runMainExit, List.getLast?_concat]
    · exact flushInv_final_append _ _ (foldl_flushInv fetch _ _ hinv0)
  | intSignal k =>
    constructor
    · intro hk
      exact absurd rfl (hk k)
    · exact foldl_flushInv fetch _ _ hinv0

/-- Fetch oracle for the C2 theorems: every id yields an empty record. -/
def c2F : Nat → ScrapeResult := fun id => ScrapeResult.ok ⟨id, [], [], [], [], []⟩

/-- Witness for the amended C2 on a concrete normal run. -/
theorem c2_flush_on_exit_amended_witness :
    (runMainExit c2F 1 3 [] ExitCause.normal).flushes.getLast?
      = some ((runMainExit c2F 1 3 [] ExitCause.normal).processedThisRun,
              (runMainExit c2F 1 3 [] ExitCause.normal).progress) :=
  (c2_flush_on_exit_amended c2F 1 3 [] ExitCause.normal).1
    (fun _ h => ExitCause.noConfusion h)

/-- Counterexample to C2 as stated: in a run over [1,3] interrupted by an
external signal after two ids were processed, the in-memory ledger is
non-empty but NO flush at all was performed — the `finally` flush does not
run on a signal because no signal handler is registered, so the claim that
the ledger is flushed unconditionally on every loop-exit path (including an
external interrupt) fails, and more than one flush interval of progress is
lost. -/
theorem c2_flush_counterexample :
    (runMainExit c2F 1 3 [] (ExitCause.intSignal 2)).flushes = [] ∧
    (runMainExit c2F 1 3 [] (ExitCause.intSignal 2)).progress ≠ [] := by
  constructor
  · decide
  · decide

lemma parseFields_bn_eq (html : List Char) :
    (parseFieldsL html).businessName = bnFinish (bnSel html) := by
  simp only [parseFieldsL]

lemma parseFields_vat_eq (html : List Char) :
    (parseFieldsL html).vatNumber = vatFinish (vatSel html) := by
  simp only [parseFieldsL]

lemma parseFields_addr_eq (html : List Char) :
    (parseFieldsL html).registeredAddress = cutPhrases.foldl cutStep (addrJoined html) := by
  simp only [parseFieldsL]

lemma parseFields_sf_eq (html : List Char) :
    (parseFieldsL html).shippedFrom
      = sfFinish html (collNlComma (cleanTextL (sfSel html))) := by
  simp only [parseFieldsL]

lemma parse_bn_eq (html : Str) (sellerId : Nat) (sourceUrl : Str) :
    (parseSellerPage html sellerId sourceUrl).businessName = bnFinish (bnSel html) := by
  simp only [parseSellerPage, parseFields_bn_eq]

lemma parse_vat_eq (html : Str) (sellerId : Nat) (sourceUrl : Str) :
    (parseSellerPage html sellerId sourceUrl).vatNumber = vatFinish (vatSel html) := by
  simp only [parseSellerPage, parseFields_vat_eq]

lemma parse_addr_eq (html : Str) (sellerId : Nat) (sourceUrl : Str) :
    (parseSellerPage html sellerId sourceUrl).registeredAddress
      = cutPhrases.foldl cutStep (addrJoined html) := by
  simp only [parseSellerPage, parseFields_addr_eq]

lemma parse_sf_eq (html : Str) (sellerId : Nat) (sourceUrl : Str) :
    (parseSellerPage html sellerId sourceUrl).shippedFrom
      = sfFinish html (collNlComma (cleanTextL (sfSel html))) := by
  simp only [parseSellerPage, parseFields_sf_eq]

lemma cleanTextL_nil : cleanTextL [] = [] := rfl

lemma vatFinish_shape {v : List Char} (h : vatFinish v ≠ []) :
    vatShape (vatFinish v) = true ∧ hasDigitRun (vatFinish v) = true := by
  unfold vatFinish at h ⊢
  by_cases hg : (v ≠ [] && !(looksLikeVatL v)) = true
  · rw [if_pos hg] at h
    exact absurd cleanTextL_nil h
  · rw [if_neg hg] at h ⊢
    by_cases h0 : v = []
    · subst h0
      exact absurd cleanTextL_nil h
    · have hlv : looksLikeVatL v = true := by
        cases hb : looksLikeVatL v with
        | true => rfl
        | false =>
          exact absurd (by
            simp only [Bool.and_eq_true, Bool.not_eq_true', decide_eq_true_eq]
            exact ⟨h0, hb⟩) hg
      unfold looksLikeVatL at hlv
      simp only [Bool.and_eq_true] at hlv
      exact hlv

/-- Claim C4 (VAT validation): the `vatNumber` field of a parsed record is
non-empty only when it matches the anchored shape (optional two-letter
prefix plus 8-20 alphanumeric/space/hyphen characters) and contains a run
of at least eight consecutive digits, whichever cascade stage produced it;
`GB123456789` passes `looksLikeVat` while `N/A` and `12345` fail. -/
theorem c4_vat_validation :
    (∀ (html : Str) (sellerId : Nat) (sourceUrl : Str),
      (parseSellerPage html sellerId sourceUrl).vatNumber ≠ [] →
      vatShape (parseSellerPage html sellerId sourceUrl).vatNumber = true ∧
      hasDigitRun (parseSellerPage html sellerId sourceUrl).vatNumber = true) ∧
    looksLikeVatL "GB123456789".data = true ∧
    looksLikeVatL "N/A".data = false ∧
    looksLikeVatL "12345".data = false := by
  refine ⟨?_, by decide, by decide, by decide⟩
  intro html sellerId sourceUrl hne
  rw [parse_vat_eq] at hne ⊢
  exact vatFinish_shape hne

set_option maxHeartbeats 4000000 in
/-- Witness for C4 at a page whose VAT comes from the label-block stage. -/
theorem c4_vat_validation_witness :
    vatShape (parseSellerPage "VAT number\nGB123456789".data 7 "u".data).vatNumber = true ∧
    hasDigitRun (parseSellerPage "VAT number\nGB123456789".data 7 "u".data).vatNumber = true :=
  c4_vat_validation.1 "VAT number\nGB123456789".data 7 "u".data (by decide)

lemma orL_pos {a : Str} (b : Str) (h : a ≠ []) : orL a b = a := by
  unfold orL
  rw [if_neg h]

lemma orL_nil (b : Str) : orL [] b = b := by
  unfold orL
  rw [if_pos rfl]

lemma filter_headD_prop {p : Str → Bool} {l : List Str}
    (h : (l.filter p).headD [] ≠ []) : p ((l.filter p).headD []) = true := by
  cases hf : l.filter p with
  | nil => rw [hf] at h; exact absurd rfl h
  | cons a t =>
    have ha : a ∈ l.filter p := by rw [hf]; exact List.mem_cons_self a t
    simpa using List.of_mem_filter ha

lemma blockStage_eq (html : Str) :
    blockStage html = extractLabelValueBlocksL (visibleTextOf html) := rfl

lemma blockBN_not_bad (text : Str)
    (h : (extractLabelValueBlocksL text).businessName ≠ []) :
    isBadBusinessNameL ((extractLabelValueBlocksL text).businessName) = false := by
  have e : (extractLabelValueBlocksL text).businessName
      = ((caGo ["Business name".data] 3 false
          (((splitNl text).map cleanTextL).filter (fun l => l ≠ []))).filter
            (fun v => !(isBadBusinessNameL v))).headD [] := by
    simp only [extractLabelValueBlocksL]
  rw [e] at h ⊢
  simpa using filter_headD_prop h

lemma blockVat_ok (text : Str)
    (h : (extractLabelValueBlocksL text).vatNumber ≠ []) :
    looksLikeVatL ((extractLabelValueBlocksL text).vatNumber) = true := by
  have e : (extractLabelValueBlocksL text).vatNumber
      = ((caGo (["VAT number", "VAT no", "VAT No."].map (fun t => t.data)) 3 false
          (((splitNl text).map cleanTextL).filter (fun l => l ≠ []))).filter
            looksLikeVatL).headD [] := by
    simp only [extractLabelValueBlocksL]
  rw [e] at h ⊢
  exact filter_headD_prop h

lemma bnFinish_not_bad {v : Str} (h : isBadBusinessNameL v = false) :
    bnFinish v = cleanTextL v := by
  unfold bnFinish
  rw [h]
  rfl

lemma vatFinish_ok {v : Str} (h : looksLikeVatL v = true) :
    vatFinish v = cleanTextL v := by
  unfold vatFinish
  have : (v ≠ [] && !(looksLikeVatL v)) = false := by simp [h]
  rw [this]
  rfl

/-- Claim C3 (cascade precedence): when the label-block stage produces a
non-empty value for a field, `parseSellerPage` outputs it (subject only to
the field's own cleanup/guards, which the label-block candidates already
satisfy) even when the structural-pair stage also produced a non-empty
value; a later stage's value feeds a field only when every earlier stage
yielded the empty string. -/
theorem c3_cascade_precedence (html : Str) (sellerId : Nat) (sourceUrl : Str) :
    ((blockStage html).businessName ≠ [] → (labelValsOf html).businessName ≠ [] →
      (parseSellerPage html sellerId sourceUrl).businessName
        = cleanTextL ((blockStage html).businessName)) ∧
    ((blockStage html).vatNumber ≠ [] → (labelValsOf html).vatNumber ≠ [] →
      (parseSellerPage html sellerId sourceUrl).vatNumber
        = cleanTextL ((blockStage html).vatNumber)) ∧
    ((blockStage html).registeredAddress ≠ [] → (labelValsOf html).registeredAddress ≠ [] →
      (parseSellerPage html sellerId sourceUrl).registeredAddress
        = cutPhrases.foldl cutStep (collNlComma (cleanTextL ((blockStage html).registeredAddress)))) ∧
    ((blockStage html).shippedFrom ≠ [] → (labelValsOf html).shippedFrom ≠ [] →
      (parseSellerPage html sellerId sourceUrl).shippedFrom
        = sfFinish html (collNlComma (cleanTextL ((blockStage html).shippedFrom)))) ∧
    ((blockStage html).businessName = [] →
      (parseSellerPage html sellerId sourceUrl).businessName
        = bnFinish (orL (labelValsOf html).businessName (rxStage html).businessName)) ∧
    ((blockStage html).vatNumber = [] →
      (parseSellerPage html sellerId sourceUrl).vatNumber
        = vatFinish (orL (labelValsOf html).vatNumber (rxStage html).vatNumber)) ∧
    ((blockStage html).registeredAddress = [] →
      (parseSellerPage html sellerId sourceUrl).registeredAddress
        = cutPhrases.foldl cutStep (collNlComma (cleanTextL
            (orL (labelValsOf html).registeredAddress (rxStage html).registeredAddress)))) ∧
    ((blockStage html).shippedFrom = [] →
      (parseSellerPage html sellerId sourceUrl).shippedFrom
        = sfFinish html (collNlComma (cleanTextL
            (orL (labelValsOf html).shippedFrom (rxStage html).shippedFrom)))) := by
  refine ⟨?_, ?_, ?_, ?_, ?_, ?_, ?_, ?_⟩
  · intro h1 _
    rw [parse_bn_eq]
    have hsel : bnSel html = (blockStage html).businessName := by
      unfold bnSel
      rw [orL_pos _ h1, orL_pos _ h1]
    rw [hsel]
    exact bnFinish_not_bad (blockStage_eq html ▸ blockBN_not_bad (visibleTextOf html)
      (blockStage_eq html ▸ h1))
  · intro h1 _
    rw [parse_vat_eq]
    have hsel : vatSel html = (blockStage html).vatNumber := by
      unfold vatSel
      rw [orL_pos _ h1, orL_pos _ h1]
    rw [hsel]
    exact vatFinish_ok (blockStage_eq html ▸ blockVat_ok (visibleTextOf html)
      (blockStage_eq html ▸ h1))
  · intro h1 _
    rw [parse_addr_eq]
    have hsel : addrSel html = (blockStage html).registeredAddress := by
      unfold addrSel
      rw [orL_pos _ h1, orL_pos _ h1]
    unfold addrJoined
    rw [hsel]
  · intro h1 _
    rw [parse_sf_eq]
    have hsel : sfSel html = (blockStage html).shippedFrom := by
      unfold sfSel
      rw [orL_pos _ h1, orL_pos _ h1]
    rw [hsel]
  · intro h1
    rw [parse_bn_eq]
    have hsel : bnSel html = orL (labelValsOf html).businessName (rxStage html).businessName := by
      unfold bnSel
      rw [h1, orL_nil]
    rw [hsel]
  · intro h1
    rw [parse_vat_eq]
    have hsel : vatSel html = orL (labelValsOf html).vatNumber (rxStage html).vatNumber := by
      unfold vatSel
      rw [h1, orL_nil]
    rw [hsel]
  · intro h1
    rw [parse_addr_eq]
    have hsel : addrSel html
        = orL (labelValsOf html).registeredAddress (rxStage html).registeredAddress := by
      unfold addrSel
      rw [h1, orL_nil]
    unfold addrJoined
    rw [hsel]
  · intro h1
    rw [parse_sf_eq]
    have hsel : sfSel html = orL (labelValsOf html).shippedFrom (rxStage html).shippedFrom := by
      unfold sfSel
      rw [h1, orL_nil]
    rw [hsel]

set_option maxHeartbeats 4000000 in
/-- Witness for C3: a page where the colon-pair (structural) stage yields
`StructCo` and the label-block stage yields `BlockCo`; the parsed business
name is the label-block value. -/
theorem c3_cascade_precedence_witness :
    (parseSellerPage "Business name: StructCo\nBusiness name\nBlockCo".data 1 "u".data).businessName
      = cleanTextL ((blockStage "Business name: StructCo\nBusiness name\nBlockCo".data).businessName) :=
  (c3_cascade_precedence "Business name: StructCo\nBusiness name\nBlockCo".data 1 "u".data).1
    (by decide) (by decide)

/-- Page whose label-block stage yields a 121-character business name. -/
def c5Html : Str := "Business name\n".data ++ List.replicate 121 'A'

set_option maxHeartbeats 8000000 in
set_option maxRecDepth 8000 in
/-- Counterexample to C5 as stated: a label-block business name of 121
characters is emitted non-empty by `parseSellerPage` — the 120-character
limit (and the heading-prefix rejection) of
`looksLikeBusinessNameCandidate` is applied only inside the pattern
fallback's line-above heuristics, not to label-block or structural-stage
values, so the claimed length rejection does not happen for them. -/
theorem c5_businessname_counterexample :
    (parseSellerPage c5Html 1 "u".data).businessName ≠ [] ∧
    120 < (parseSellerPage c5Html 1 "u".data).businessName.length := by
  constructor
  · decide
  · decide

/-- Claim C5, amended: the final guard of `parseSellerPage` blanks the
selected business name exactly when its label-normalized form is in the
closed disallowed set (`isBadBusinessName`), regardless of producing
stage; the over-120-character and heading-prefix rejections belong to
`looksLikeBusinessNameCandidate`, which only filters the pattern-fallback
line-above heuristics. -/
theorem c5_businessname_rejection_amended (html : Str) (sellerId : Nat) (sourceUrl : Str) :
    (isBadBusinessNameL (bnSel html) = true →
      (parseSellerPage html sellerId sourceUrl).businessName = []) ∧
    ((parseSellerPage html sellerId sourceUrl).businessName ≠ [] →
      isBadBusinessNameL (bnSel html) = false) := by
  constructor
  · intro h
    rw [parse_bn_eq]
    unfold bnFinish
    rw [if_pos h]
    exact cleanTextL_nil
  · intro h
    cases hb : isBadBusinessNameL (bnSel html) with
    | false => rfl
    | true =>
      rw [parse_bn_eq] at h
      unfold bnFinish at h
      rw [if_pos hb] at h
      exact absurd cleanTextL_nil h

set_option maxHeartbeats 4000000 in
/-- Witness for the amended C5: a colon-pair (structural-stage) business
name `Email` is label-normalized into the disallowed set and blanked. -/
theorem c5_businessname_rejection_amended_witness :
    (parseSellerPage "Business name: Email".data 1 "u".data).businessName = [] :=
  (c5_businessname_rejection_amended "Business name: Email".data 1 "u".data).1 (by decide)

lemma startsWithL_iff (p : Str) : ∀ s : Str, startsWithL p s = true ↔ ∃ t, s = p ++ t := by
  induction p with
  | nil => intro s; simp [startsWithL]
  | cons c cs ih =>
    intro s
    cases s with
    | nil =>
      simp only [startsWithL, List.cons_append]
      constructor
      · intro h; exact Bool.noConfusion h
      · rintro ⟨t, ht⟩; exact List.noConfusion ht
    | cons d ds =>
      simp only [startsWithL, Bool.and_eq_true, decide_eq_true_eq, ih, List.cons_append,
        List.cons.injEq]
      constructor
      · rintro ⟨rfl, t, rfl⟩
        exact ⟨t, rfl, rfl⟩
      · rintro ⟨t, rfl, rfl⟩
        exact ⟨rfl, t, rfl⟩

lemma firstIdxAux_isSome_iff (p : Str) :
    ∀ (s : Str) (k : Nat),
      (firstIdxAux p s k).isSome = true ↔ ∃ a b, s = a ++ p ++ b := by
  intro s
  induction s with
  | nil =>
    intro k
    simp only [firstIdxAux]
    constructor
    · intro h
      split at h
      · rename_i hs
        rcases (startsWithL_iff p []).1 hs with ⟨t, ht⟩
        rcases List.append_eq_nil.1 ht.symm with ⟨hp, htn⟩
        exact ⟨[], [], by rw [hp]; rfl⟩
      · exact Bool.noConfusion h
    · rintro ⟨a, b, hab⟩
      rcases List.append_eq_nil.1 hab.symm with ⟨hap, hb⟩
      rcases List.append_eq_nil.1 hap with ⟨ha, hp⟩
      rw [if_pos (by rw [hp]; rfl)]
      rfl
  | cons c rest ih =>
    intro k
    simp only [firstIdxAux]
    by_cases hs : startsWithL p (c :: rest) = true
    · rw [if_pos hs]
      simp only [Option.isSome_some, true_iff]
      rcases (startsWithL_iff p _).1 hs with ⟨t, ht⟩
      exact ⟨[], t, by rw [ht]; rfl⟩
    · rw [if_neg hs, ih (k + 1)]
      constructor
      · rintro ⟨a, b, hab⟩
        exact ⟨c :: a, b, by rw [hab]; rfl⟩
      · rintro ⟨a, b, hab⟩
        cases a with
        | nil =>
          exfalso
          apply hs
          rw [startsWithL_iff]
          exact ⟨b, by simpa using hab⟩
        | cons a0 atl =>
          rw [List.cons_append, List.cons_append, List.cons.injEq] at hab
          exact ⟨atl, b, hab.2⟩

lemma hasSub_iff (p s : Str) : hasSub p s = true ↔ ∃ a b, s = a ++ p ++ b := by
  unfold hasSub firstIdx
  exact firstIdxAux_isSome_iff p s 0

lemma hasSub_false_of_cover {p s t : Str} (h : hasSub p t = false)
    (u v : Str) (ht : t = u ++ s ++ v) : hasSub p s = false := by
  cases hq : hasSub p s with
  | false => rfl
  | true =>
    exfalso
    rcases (hasSub_iff p s).1 hq with ⟨a, b, rfl⟩
    have htr : hasSub p t = true := by
      rw [hasSub_iff]
      exact ⟨u ++ a, b ++ v, by rw [ht]; simp [List.append_assoc]⟩
    rw [htr] at h
    exact Bool.noConfusion h

lemma firstIdx_eq_none {p s : Str} (h : hasSub p s = false) : firstIdx p s = none := by
  unfold hasSub at h
  cases ho : firstIdx p s with
  | none => rfl
  | some v => rw [ho] at h; exact Bool.noConfusion h

lemma cutStep_none {a p : Str} (h : firstIdx p (lowL a) = none) : cutStep a p = a := by
  unfold cutStep
  rw [h]

lemma rev_dropWhile_cover (q : Char → Bool) (s : Str) :
    s = (s.reverse.dropWhile q).reverse ++ (s.reverse.takeWhile q).reverse := by
  conv_lhs => rw [← List.reverse_reverse s,
    ← List.takeWhile_append_dropWhile (p := q) (l := s.reverse)]
  rw [List.reverse_append]

lemma trimJS_cover (s : Str) : ∃ u v, s = u ++ trimJS s ++ v := by
  refine ⟨s.takeWhile isWS, ((s.dropWhile isWS).reverse.takeWhile isWS).reverse, ?_⟩
  unfold trimJS
  conv_lhs => rw [← List.takeWhile_append_dropWhile (p := isWS) (l := s)]
  rw [List.append_assoc]
  congr 1
  exact rev_dropWhile_cover isWS (s.dropWhile isWS)

lemma dropTrailSep_cover (s : Str) : ∃ v, s = dropTrailSep s ++ v := by
  refine ⟨(s.reverse.takeWhile (fun c => c = ',' || isWS c)).reverse, ?_⟩
  unfold dropTrailSep
  exact rev_dropWhile_cover _ s

lemma cut1_cover (a : Str) (i : Nat) :
    ∃ u v, a = u ++ dropTrailSep (trimJS (a.take i)) ++ v := by
  obtain ⟨u1, v1, h1⟩ := trimJS_cover (a.take i)
  obtain ⟨v2, h2⟩ := dropTrailSep_cover (trimJS (a.take i))
  refine ⟨u1, v2 ++ v1 ++ a.drop i, ?_⟩
  conv_lhs => rw [← List.take_append_drop i a, h1, h2]
  simp [List.append_assoc]

lemma lowL_append (x y : Str) : lowL (x ++ y) = lowL x ++ lowL y := by
  unfold lowL
  exact List.map_append lowCh x y

/-- Claim C9 (address truncation): the captured address lines are joined
with ", " separators into `addrJoined`; when the phrase
`this seller ships from` occurs in the lowercased accumulated text at
offset `i` and no other cut phrase occurs in it, the output address is the
prefix before offset `i`, trimmed and with trailing comma separators and
whitespace removed. -/
theorem c9_address_truncation (html : Str) (sellerId : Nat) (sourceUrl : Str) (i : Nat)
    (hp : firstIdx "this seller ships from".data (lowL (addrJoined html)) = some i)
    (hothers : ∀ q ∈ cutPhrases, q ≠ "this seller ships from".data →
        hasSub q (lowL (addrJoined html)) = false) :
    (parseSellerPage html sellerId sourceUrl).registeredAddress
      = dropTrailSep (trimJS ((addrJoined html).take i)) := by
  rw [parse_addr_eq]
  have h1 : cutStep (addrJoined html) ("this seller ships from".data)
      = dropTrailSep (trimJS ((addrJoined html).take i)) := by
    unfold cutStep
    rw [hp]
  obtain ⟨u, v, huv⟩ := cut1_cover (addrJoined html) i
  have hni : ∀ q ∈ cutPhrases, q ≠ "this seller ships from".data →
      firstIdx q (lowL (dropTrailSep (trimJS ((addrJoined html).take i)))) = none := by
    intro q hq hne
    apply firstIdx_eq_none
    apply hasSub_false_of_cover (hothers q hq hne) (lowL u) (lowL v)
    rw [← lowL_append, ← lowL_append, ← huv]
  have e : cutPhrases.foldl cutStep (addrJoined html)
      = cutStep (cutStep (cutStep (cutStep (addrJoined html)
          ("this seller ships from".data))
          ("how to contact a b&q verified seller".data))
          ("got a question about your order".data))
          ("returns policy".data) := by
    simp only [cutPhrases, List.map, List.foldl]
  rw [e, h1,
    cutStep_none (hni ("how to contact a b&q verified seller".data) (by decide) (by decide)),
    cutStep_none (hni ("got a question about your order".data) (by decide) (by decide)),
    cutStep_none (hni ("returns policy".data) (by decide) (by decide))]

/-- Page for the C9 witness: the ships-from phrase is embedded inside the
captured address line. -/
def c9Html : Str := "Registered address\n1 High St This seller ships from Germany".data

set_option maxHeartbeats 8000000 in
/-- Witness for C9: the embedded phrase `This seller ships from Germany`
is cut from the accumulated address, leaving `1 High St`. -/
theorem c9_address_truncation_witness :
    (parseSellerPage c9Html 1 "u".data).registeredAddress = "1 High St".data :=
  (c9_address_truncation c9Html 1 "u".data 10 (by decide) (by decide)).trans (by decide)

/-- Claim C10 (implicit): `isBlockedHtml` classifies HTTP status 503 as
blocked unconditionally, whatever the page content or final URL. -/
theorem c10_status503_blocked (html : Str) (finalUrl : Str) :
    isBlockedHtml html (some 503) finalUrl = true := by
  unfold isBlockedHtml
  rw [if_pos rfl]

/-- Witness for C10 on a page with no block signal at all. -/
theorem c10_status503_blocked_witness :
    isBlockedHtml "hello".data (some 503) "x".data = true :=
  c10_status503_blocked "hello".data "x".data

lemma scrapeSellerBGo_page (att : Nat → PageLoad) (sellerId : Nat) (url : Str)
    (fuel attempt : Nat) (tr : BTrace) (st : Option Nat) (u h : Str)
    (ha : att attempt = PageLoad.page st u h) :
    scrapeSellerBGo att sellerId url (fuel + 1) attempt tr
      = (if st = some 404 ∨ st = some 410 then
           (ScrapeResult.ok (emptyResult sellerId url),
            ⟨tr.fetches + 1, tr.parses, tr.sleeps, tr.debugSaves⟩)
         else if notFoundEl h then
           (ScrapeResult.ok (emptyResult sellerId url),
            ⟨tr.fetches + 1, tr.parses, tr.sleeps, tr.debugSaves⟩)
         else if isBlockedHtml h st u then
           (if attempt < MAX_RETRIES then
              scrapeSellerBGo att sellerId url fuel (attempt + 1)
                ⟨tr.fetches + 1, tr.parses, tr.sleeps ++ [4000 * attempt],
                 tr.debugSaves ++ ["blocked".data]⟩
            else
              (ScrapeResult.err sellerId
                ("Blocked/challenge page (HTTP ".data ++ statusStr st ++ ")".data),
               ⟨tr.fetches + 1, tr.parses, tr.sleeps, tr.debugSaves ++ ["blocked".data]⟩))
         else if allEmptyFields (parseSellerPage h sellerId url) then
           (if notFoundText h then
              (ScrapeResult.ok (emptyResult sellerId url),
               ⟨tr.fetches + 1, tr.parses + 1, tr.sleeps, tr.debugSaves ++ ["empty".data]⟩)
            else if attempt < MAX_RETRIES then
              scrapeSellerBGo att sellerId url fuel (attempt + 1)
                ⟨tr.fetches + 1, tr.parses + 1, tr.sleeps ++ [4000 * attempt],
                 tr.debugSaves ++ ["empty".data]⟩
            else
              (ScrapeResult.ok (parseSellerPage h sellerId url),
               ⟨tr.fetches + 1, tr.parses + 1, tr.sleeps, tr.debugSaves ++ ["empty".data]⟩))
         else
           (ScrapeResult.ok (parseSellerPage h sellerId url),
            ⟨tr.fetches + 1, tr.parses + 1, tr.sleeps, tr.debugSaves⟩)) := by
  conv_lhs => rw [scrapeSellerBGo]
  simp only [ha]

lemma scrapeSellerApiGo_resp (att : Nat → ApiResponse) (sellerId : Nat) (url : Str)
    (fuel attempt : Nat) (tr : ATrace) (status : Nat) (ra : Option Nat)
    (body : Except Str (Option ApiAttrs))
    (ha : att attempt = ApiResponse.resp status ra body) :
    scrapeSellerApiGo att sellerId url (fuel + 1) attempt tr
      = (if status = 404 ∨ status = 410 then
           (ScrapeResult.ok (emptyResult sellerId url),
            ⟨tr.fetches + 1, tr.sleeps, tr.jsonParses⟩)
         else if 200 ≤ status ∧ status ≤ 299 then
           (match body with
            | Except.error msg =>
              if attempt < MAX_RETRIES then
                scrapeSellerApiGo att sellerId url fuel (attempt + 1)
                  ⟨tr.fetches + 1, tr.sleeps ++ [4000 * attempt], tr.jsonParses + 1⟩
              else (ScrapeResult.err sellerId msg,
                ⟨tr.fetches + 1, tr.sleeps, tr.jsonParses + 1⟩)
            | Except.ok attrs? =>
              (ScrapeResult.ok (parseSellerApiResponse attrs? sellerId url),
               ⟨tr.fetches + 1, tr.sleeps, tr.jsonParses + 1⟩))
         else if attempt < MAX_RETRIES then
           scrapeSellerApiGo att sellerId url fuel (attempt + 1)
             ⟨tr.fetches + 1, tr.sleeps ++ [4000 * attempt], tr.jsonParses⟩
         else
           (ScrapeResult.err sellerId ("API HTTP ".data ++ (toString status).data),
            ⟨tr.fetches + 1, tr.sleeps, tr.jsonParses⟩)) := by
  conv_lhs => rw [scrapeSellerApiGo]
  simp only [ha]

/-- The id carried by a scrape outcome. -/
def resultSellerId : ScrapeResult → Nat
  | ScrapeResult.ok r => r.sellerId
  | ScrapeResult.err s _ => s

lemma scrapeSellerBGo_id (att : Nat → PageLoad) (id : Nat) (url : Str) :
    ∀ (fuel attempt : Nat) (tr : BTrace),
      resultSellerId (scrapeSellerBGo att id url fuel attempt tr).1 = id := by
  intro fuel
  induction fuel with
  | zero => intro attempt tr; rfl
  | succ fuel ih =>
    intro attempt tr
    rw [scrapeSellerBGo]
    cases att attempt with
    | fail msg =>
      dsimp only
      split
      · exact ih (attempt + 1) _
      · rfl
    | page st u h =>
      dsimp only
      split
      · rfl
      · split
        · rfl
        · split
          · split
            · exact ih (attempt + 1) _
            · rfl
          · split
            · split
              · rfl
              · split
                · exact ih (attempt + 1) _
                · rfl
            · rfl

lemma scrapeSellerApiGo_id (att : Nat → ApiResponse) (id : Nat) (url : Str) :
    ∀ (fuel attempt : Nat) (tr : ATrace),
      resultSellerId (scrapeSellerApiGo att id url fuel attempt tr).1 = id := by
  intro fuel
  induction fuel with
  | zero => intro attempt tr; rfl
  | succ fuel ih =>
    intro attempt tr
    rw [scrapeSellerApiGo]
    cases att attempt with
    | netFail msg =>
      dsimp only
      split
      · exact ih (attempt + 1) _
      · rfl
    | resp status ra body =>
      dsimp only
      split
      · rfl
      · split
        · cases body with
          | error msg =>
            dsimp only
            split
            · exact ih (attempt + 1) _
            · rfl
          | ok attrs? =>
            cases attrs? with
            | none => rfl
            | some a => rfl
        · split
          · exact ih (attempt + 1) _
          · rfl

/-- Both fetch clients stamp their outcome with the requested id; this is
the well-formedness the idempotent-resume theorem assumes of its fetch
oracle. -/
lemma scrapeSeller_id_stamp (attB : Nat → PageLoad) (attA : Nat → ApiResponse) (id : Nat) :
    resultSellerId (scrapeSellerB attB id).1 = id ∧
    resultSellerId (scrapeSellerApi attA id).1 = id :=
  ⟨scrapeSellerBGo_id attB id _ _ 1 _, scrapeSellerApiGo_id attA id _ _ 1 _⟩

/-- Attempt oracle of the C6 counterexample: a 429 carrying Retry-After 7
on the first attempt. -/
def c6Att : Nat → ApiResponse := fun a =>
  if a = 1 then ApiResponse.resp 429 (some 7) (Except.ok none)
  else ApiResponse.resp 404 none (Except.ok none)

/-- Same oracle with a very different server-suggested wait. -/
def c6AttB : Nat → ApiResponse := fun a =>
  if a = 1 then ApiResponse.resp 429 (some 999) (Except.ok none)
  else ApiResponse.resp 404 none (Except.ok none)

/-- Counterexample to C6 as stated: a rate-limited (429) attempt carrying
a server-suggested wait of 7 — or of 999 — sleeps exactly 4000 ms either
way before retrying: the fetch client never consults the server-suggested
time, and its backoff is the generic linear `4000 * attempt`, not
exponential. -/
theorem c6_ratelimit_counterexample :
    (scrapeSellerApi c6Att 5).2.sleeps = [4000] ∧
    (scrapeSellerApi c6AttB 5).2.sleeps = [4000] ∧
    ([4000] : List Nat) ≠ [7] ∧ ([4000] : List Nat) ≠ [7000] ∧
    ([4000] : List Nat) ≠ [999] ∧ ([4000] : List Nat) ≠ [999000] := by
  refine ⟨by decide, by decide, by decide, by decide, by decide, by decide⟩

/-- Claim C6, amended: a rate-limit (429) response is handled like any
other non-success status — the client sleeps the linear `4000 * attempt`
(ignoring any Retry-After value) and retries; when the budget of
`MAX_RETRIES = 2` attempts is exhausted the outcome is the error
`API HTTP 429`. -/
theorem c6_ratelimit_backoff_amended (att : Nat → ApiResponse) (id : Nat)
    (ra1 ra2 : Option Nat) (b1 b2 : Except Str (Option ApiAttrs))
    (h1 : att 1 = ApiResponse.resp 429 ra1 b1)
    (h2 : att 2 = ApiResponse.resp 429 ra2 b2) :
    (scrapeSellerApi att id).1 = ScrapeResult.err id "API HTTP 429".data ∧
    (scrapeSellerApi att id).2.sleeps = [4000] ∧
    (scrapeSellerApi att id).2.fetches = 2 := by
  have em : MAX_RETRIES = 1 + 1 := rfl
  have key : scrapeSellerApi att id
      = (ScrapeResult.err id ("API HTTP ".data ++ (toString 429).data),
         ⟨2, [4000 * 1], 0⟩) := by
    show scrapeSellerApiGo att id (sellerUrl id) (MAX_RETRIES + 1) 1 ⟨0, [], 0⟩ = _
    rw [scrapeSellerApiGo_resp att id _ MAX_RETRIES 1 _ 429 ra1 b1 h1]
    rw [if_neg (by decide), if_neg (by decide), if_pos (by decide)]
    rw [em, scrapeSellerApiGo_resp att id _ 1 2 _ 429 ra2 b2 h2]
    rw [if_neg (by decide), if_neg (by decide), if_neg (by decide)]
    rfl
  rw [key]
  exact ⟨rfl, rfl, rfl⟩

/-- Witness for the amended C6 at a concrete pair of 429 responses. -/
theorem c6_ratelimit_backoff_amended_witness :
    (scrapeSellerApi (fun _ => ApiResponse.resp 429 (some 7) (Except.ok none)) 5).1
      = ScrapeResult.err 5 "API HTTP 429".data ∧
    (scrapeSellerApi (fun _ => ApiResponse.resp 429 (some 7) (Except.ok none)) 5).2.sleeps
      = [4000] :=
  ⟨(c6_ratelimit_backoff_amended _ 5 (some 7) (some 7) (Except.ok none) (Except.ok none)
      rfl rfl).1,
   (c6_ratelimit_backoff_amended _ 5 (some 7) (some 7) (Except.ok none) (Except.ok none)
      rfl rfl).2.1⟩

/-- Claim C8 (not-found short-circuit): in both variants, a first attempt
answering 404 or 410 returns the all-empty `Empty` record immediately —
one fetch, no sleep, no retry, and no extraction of the body
(`parses`/`jsonParses` stay 0). -/
theorem c8_notfound_shortcircuit :
    (∀ (att : Nat → PageLoad) (id : Nat) (st : Option Nat) (u h : Str),
      att 1 = PageLoad.page st u h → (st = some 404 ∨ st = some 410) →
      scrapeSellerB att id
        = (ScrapeResult.ok (emptyResult id (sellerUrl id)), ⟨1, 0, [], []⟩)) ∧
    (∀ (att : Nat → ApiResponse) (id : Nat) (st : Nat) (ra : Option Nat)
        (body : Except Str (Option ApiAttrs)),
      att 1 = ApiResponse.resp st ra body → (st = 404 ∨ st = 410) →
      scrapeSellerApi att id
        = (ScrapeResult.ok (emptyResult id (sellerUrl id)), ⟨1, [], 0⟩)) := by
  constructor
  · intro att id st u h ha hst
    show scrapeSellerBGo att id (sellerUrl id) (MAX_RETRIES + 1) 1 ⟨0, 0, [], []⟩ = _
    rw [scrapeSellerBGo_page att id _ MAX_RETRIES 1 _ st u h ha]
    rw [if_pos hst]
  · intro att id st ra body ha hst
    show scrapeSellerApiGo att id (sellerUrl id) (MAX_RETRIES + 1) 1 ⟨0, [], 0⟩ = _
    rw [scrapeSellerApiGo_resp att id _ MAX_RETRIES 1 _ st ra body ha]
    rw [if_pos hst]

/-- Witness for C8: a 404 first attempt in each variant. -/
theorem c8_notfound_shortcircuit_witness :
    scrapeSellerB (fun _ => PageLoad.page (some 404) "x".data "ignored body".data) 9
      = (ScrapeResult.ok (emptyResult 9 (sellerUrl 9)), ⟨1, 0, [], []⟩) ∧
    scrapeSellerApi (fun _ => ApiResponse.resp 404 none (Except.ok none)) 9
      = (ScrapeResult.ok (emptyResult 9 (sellerUrl 9)), ⟨1, [], 0⟩) :=
  ⟨c8_notfound_shortcircuit.1 _ 9 (some 404) "x".data "ignored body".data rfl (Or.inl rfl),
   c8_notfound_shortcircuit.2 _ 9 404 none (Except.ok none) rfl (Or.inl rfl)⟩

/-- Attempt oracle of the C7 counterexample: a 200 page with no block
signal, no not-found wording, and nothing extractable. -/
def c7Att : Nat → PageLoad := fun _ => PageLoad.page (some 200) "x".data "hello".data

set_option maxHeartbeats 4000000 in
/-- Counterexample to C7 as stated: a rendered page whose extraction is
all-empty, with no block signal and no not-found wording, is retried and
then — on budget exhaustion — returned as the all-empty parsed record,
which `main` classifies as `empty` ("no seller found"), NOT surfaced as an
error as the claim requires. -/
theorem c7_empty_vs_blocked_counterexample :
    (scrapeSellerB c7Att 7).1 = ScrapeResult.ok (emptyResult 7 (sellerUrl 7)) ∧
    (∀ m, (scrapeSellerB c7Att 7).1 ≠ ScrapeResult.err 7 m) ∧
    (scrapeSellerB c7Att 7).2.sleeps = [4000] := by
  have hk : (scrapeSellerB c7Att 7).1 = ScrapeResult.ok (emptyResult 7 (sellerUrl 7)) := by
    decide
  refine ⟨hk, ?_, by decide⟩
  intro m hm
  rw [hk] at hm
  exact ScrapeResult.noConfusion hm

/-- Claim C7, amended: for a rendered page attempt (status not 404/410, no
early not-found marker): a page matching a block signal is retried exactly
once (sleeping 4000 ms) and then surfaced as the terminal
`Blocked/challenge page` error; an all-empty extraction with no block
signal but explicit not-found wording returns `Empty` at once; an
all-empty extraction with neither is retried once and, on budget
exhaustion, the all-empty parsed record itself is returned (an `Empty`
outcome, not an error). -/
theorem c7_empty_vs_blocked_amended :
    (∀ (att : Nat → PageLoad) (id : Nat) (st : Option Nat) (u h : Str),
      (∀ a, att a = PageLoad.page st u h) →
      ¬(st = some 404 ∨ st = some 410) →
      notFoundEl h = false →
      isBlockedHtml h st u = true →
      (scrapeSellerB att id).1 = ScrapeResult.err id
          ("Blocked/challenge page (HTTP ".data ++ statusStr st ++ ")".data) ∧
      (scrapeSellerB att id).2.sleeps = [4000] ∧
      (scrapeSellerB att id).2.fetches = 2) ∧
    (∀ (att : Nat → PageLoad) (id : Nat) (st : Option Nat) (u h : Str),
      att 1 = PageLoad.page st u h →
      ¬(st = some 404 ∨ st = some 410) →
      notFoundEl h = false →
      isBlockedHtml h st u = false →
      allEmptyFields (parseSellerPage h id (sellerUrl id)) = true →
      notFoundText h = true →
      (scrapeSellerB att id).1 = ScrapeResult.ok (emptyResult id (sellerUrl id)) ∧
      (scrapeSellerB att id).2.fetches = 1) ∧
    (∀ (att : Nat → PageLoad) (id : Nat) (st : Option Nat) (u h : Str),
      (∀ a, att a = PageLoad.page st u h) →
      ¬(st = some 404 ∨ st = some 410) →
      notFoundEl h = false →
      isBlockedHtml h st u = false →
      allEmptyFields (parseSellerPage h id (sellerUrl id)) = true →
      notFoundText h = false →
      (scrapeSellerB att id).1 = ScrapeResult.ok (parseSellerPage h id (sellerUrl id)) ∧
      (scrapeSellerB att id).2.sleeps = [4000] ∧
      (scrapeSellerB att id).2.fetches = 2) := by
  have em : MAX_RETRIES = 1 + 1 := rfl
  refine ⟨?_, ?_, ?_⟩
  · intro att id st u h hatt hs hnf hb
    have key : scrapeSellerB att id
        = (ScrapeResult.err id
            ("Blocked/challenge page (HTTP ".data ++ statusStr st ++ ")".data),
           ⟨2, 0, [4000 * 1], ["blocked".data, "blocked".data]⟩) := by
      show scrapeSellerBGo att id (sellerUrl id) (MAX_RETRIES + 1) 1 ⟨0, 0, [], []⟩ = _
      rw [scrapeSellerBGo_page att id _ MAX_RETRIES 1 _ st u h (hatt 1)]
      rw [if_neg hs, hnf]
      rw [if_neg (by simp), hb, if_pos rfl, if_pos (by decide)]
      rw [em, scrapeSellerBGo_page att id _ 1 2 _ st u h (hatt 2)]
      rw [if_neg hs, hnf]
      rw [if_neg (by simp), hb, if_pos rfl, if_neg (by decide)]
      rfl
    rw [key]
    exact ⟨rfl, rfl, rfl⟩
  · intro att id st u h hatt hs hnf hb hae hnt
    have key : scrapeSellerB att id
        = (ScrapeResult.ok (emptyResult id (sellerUrl id)),
           ⟨1, 1, [], ["empty".data]⟩) := by
      show scrapeSellerBGo att id (sellerUrl id) (MAX_RETRIES + 1) 1 ⟨0, 0, [], []⟩ = _
      rw [scrapeSellerBGo_page att id _ MAX_RETRIES 1 _ st u h hatt]
      rw [if_neg hs, hnf]
      rw [if_neg (by simp), hb]
      rw [if_neg (by simp), hae, if_pos rfl, hnt, if_pos rfl]
      rfl
    rw [key]
    exact ⟨rfl, rfl⟩
  · intro att id st u h hatt hs hnf hb hae hnt
    have key : scrapeSellerB att id
        = (ScrapeResult.ok (parseSellerPage h id (sellerUrl id)),
           ⟨2, 2, [4000 * 1], ["empty".data, "empty".data]⟩) := by
      show scrapeSellerBGo att id (sellerUrl id) (MAX_RETRIES + 1) 1 ⟨0, 0, [], []⟩ = _
      rw [scrapeSellerBGo_page att id _ MAX_RETRIES 1 _ st u h (hatt 1)]
      rw [if_neg hs, hnf]
      rw [if_neg (by simp), hb]
      rw [if_neg (by simp), hae, if_pos rfl, hnt]
      rw [if_neg (by simp), if_pos (by decide)]
      rw [em, scrapeSellerBGo_page att id _ 1 2 _ st u h (hatt 2)]
      rw [if_neg hs, hnf]
      rw [if_neg (by simp), hb]
      rw [if_neg (by simp), hae, if_pos rfl, hnt]
      rw [if_neg (by simp), if_neg (by decide)]
      rfl
    rw [key]
    exact ⟨rfl, rfl, rfl⟩

set_option maxHeartbeats 8000000 in
/-- Witness for the amended C7: a `verify you are human` page is blocked
and errors after one retry; a `seller not found` page is `Empty`. -/
theorem c7_empty_vs_blocked_amended_witness :
    (scrapeSellerB (fun _ => PageLoad.page (some 200) "x".data
        "verify you are human".data) 3).1
      = ScrapeResult.err 3
          ("Blocked/challenge page (HTTP ".data ++ statusStr (some 200) ++ ")".data) ∧
    (scrapeSellerB (fun _ => PageLoad.page (some 200) "x".data
        "seller not found".data) 4).1
      = ScrapeResult.ok (emptyResult 4 (sellerUrl 4)) :=
  ⟨(c7_empty_vs_blocked_amended.1 _ 3 (some 200) "x".data "verify you are human".data
      (fun _ => rfl) (by decide) (by decide) (by decide)).1,
   (c7_empty_vs_blocked_amended.2.1 _ 4 (some 200) "x".data "seller not found".data
      rfl (by decide) (by decide) (by decide) (by decide) (by decide)).1⟩

end BQScraper
